import Mathlib

/-!
# libShake, Linux back end (`src/linux/shake.c`)

A shallow embedding of the device registry, the capability prober, the effect
codec and the playback controller, followed by theorems about them.

Conventions of the embedding

* C integers are `Int`/`Nat`; a conversion to a fixed-width type is written
  explicitly (`toU16`, `toS16`, `toS32`, `toUnsigned`).
* A pointer that may be `NULL` is an `Option`.
* The operating system (open/close/write/ioctl, `scandir`, `malloc`) is an
  arbitrary deterministic state machine `Env σ`; every embedded function
  threads the state `σ` and returns the list of transport calls it issued.
* An uninitialised local (`struct input_event ie;`, `struct ff_effect e;`,
  `Shake_Device dev;`) is a parameter holding its indeterminate initial
  contents.
-/

namespace LibShake

/-! ## Fixed-width integer conversions -/

/-- Conversion to an unsigned integer type of `w` bits. -/
def toUnsigned (w : Nat) (x : Int) : Int := x % 2 ^ w

/-- Conversion to a signed (two's complement) integer type of `w + 1` bits. -/
def toSigned (w : Nat) (x : Int) : Int := (x + 2 ^ w) % 2 ^ (w + 1) - 2 ^ w

/-- Conversion to `__u16`. -/
def toU16 (x : Int) : Int := toUnsigned 16 x

/-- Conversion to `__s16`. -/
def toS16 (x : Int) : Int := toSigned 15 x

/-- Conversion to `__s32` / `int`. -/
def toS32 (x : Int) : Int := toSigned 31 x

/-- Subtraction of two `unsigned int` values (32 bits, wraps). -/
def usub32 (a b : Nat) : Nat := (a + 2 ^ 32 - b % 2 ^ 32) % 2 ^ 32

/-! ## Platform constants (`linux/input.h`) -/

def EV_FF : Int := 0x15
def FF_RUMBLE : Int := 0x50
def FF_PERIODIC : Int := 0x51
def FF_CONSTANT : Int := 0x52
def FF_RAMP : Int := 0x57
def FF_SQUARE : Int := 0x58
def FF_GAIN : Int := 0x60
def FF_AUTOCENTER : Int := 0x61
def FF_STATUS_STOPPED : Int := 0
def FF_STATUS_PLAYING : Int := 1

/-! ## Status codes and enumerators of `shake.h` -/

/-- Modelled from the spec: `shake.h` is not among the sources. `SHAKE_OK` is
the "Ok" status; the source treats it as zero (`isHaptic = !Shake_Query(dev)`). -/
def SHAKE_OK : Int := 0

/-- Modelled from the spec: `shake.h` is not among the sources. `SHAKE_ERROR`
is the "negative error sentinel" of section 6. -/
def SHAKE_ERROR : Int := -1

/-- Constants of the library headers, which are not among the sources: the
enumerators of `Shake_EffectType` (`shake.h`) and the device directory. Their
values are parameters of the development. -/
structure Shake_h where
  SHAKE_EFFECT_RUMBLE : Int
  SHAKE_EFFECT_PERIODIC : Int
  SHAKE_EFFECT_CONSTANT : Int
  SHAKE_EFFECT_RAMP : Int
  SHAKE_EFFECT_COUNT : Int
  /-- The macro `SHAKE_DIR_NODES` of `shake_private.h`. -/
  SHAKE_DIR_NODES : String
  deriving DecidableEq, Repr

/-! ## Native records (`linux/input.h`) -/

/-- The native `struct input_event`: `time` is never assigned by the library. -/
structure input_event where
  time : Int × Int
  type : Int
  code : Int
  value : Int
  deriving DecidableEq, Repr

/-- The native `struct ff_envelope`. -/
structure ff_envelope where
  attack_length : Int
  attack_level : Int
  fade_length : Int
  fade_level : Int
  deriving DecidableEq, Repr

/-- The native `struct ff_rumble_effect`. -/
structure ff_rumble_effect where
  strong_magnitude : Int
  weak_magnitude : Int
  deriving DecidableEq, Repr

/-- The native `struct ff_periodic_effect`; `custom_len` and `custom_data` are
never assigned by the library. -/
structure ff_periodic_effect where
  waveform : Int
  period : Int
  magnitude : Int
  offset : Int
  phase : Int
  envelope : ff_envelope
  custom_len : Int
  custom_data : Int
  deriving DecidableEq, Repr

/-- The native `struct ff_constant_effect`. -/
structure ff_constant_effect where
  level : Int
  envelope : ff_envelope
  deriving DecidableEq, Repr

/-- The native `struct ff_ramp_effect`. -/
structure ff_ramp_effect where
  start_level : Int
  end_level : Int
  envelope : ff_envelope
  deriving DecidableEq, Repr

/-- The union `u` of `struct ff_effect`. Each view the library writes is kept
as a record of its own: a branch of `Shake_UploadEffect` writes one view only,
and the transport reads the view selected by `type`. -/
structure ff_union where
  rumble : ff_rumble_effect
  periodic : ff_periodic_effect
  constant : ff_constant_effect
  ramp : ff_ramp_effect
  deriving DecidableEq, Repr

/-- The native `struct ff_trigger`. -/
structure ff_trigger where
  button : Int
  interval : Int
  deriving DecidableEq, Repr

/-- The native `struct ff_replay`. -/
structure ff_replay where
  length : Int
  delay : Int
  deriving DecidableEq, Repr

/-- The native `struct ff_effect`. -/
structure ff_effect where
  type : Int
  id : Int
  direction : Int
  trigger : ff_trigger
  replay : ff_replay
  u : ff_union
  deriving DecidableEq, Repr

/-! ## The operating system -/

/-- A request sent to the transport. -/
inductive Call where
  | sys_open (path : String)
  | sys_close (fd : Int)
  | sys_write (fd : Int) (ev : input_event)
  | ioctl_EVIOCGBIT (fd : Int)
  | ioctl_EVIOCGEFFECTS (fd : Int)
  | ioctl_EVIOCGNAME (fd : Int)
  | ioctl_EVIOCSFF (fd : Int) (e : ff_effect)
  | ioctl_EVIOCRMFF (fd : Int) (id : Int)
  deriving DecidableEq, Repr

/-- The collaborators of section 6 as a deterministic state machine over `σ`.
A request that fills a caller buffer receives the buffer's current contents and
answers with the return code and the buffer's contents after the call. -/
structure Env (σ : Type) where
  /-- Width of `unsigned long` on the target. -/
  ulongBits : Nat
  /-- Result of `open(path, O_RDWR)`. -/
  sys_open : String → σ → Int × σ
  /-- Result of `close(fd)`. -/
  sys_close : Int → σ → Int × σ
  /-- Result of `write(fd, &event, sizeof event)`. -/
  sys_write : Int → input_event → σ → Int × σ
  /-- Result of `ioctl(fd, EVIOCGBIT(EV_FF, ..), features)`. -/
  ioctl_EVIOCGBIT : Int → List Nat → σ → (Int × List Nat) × σ
  /-- Result of `ioctl(fd, EVIOCGEFFECTS, &capacity)`. -/
  ioctl_EVIOCGEFFECTS : Int → Int → σ → (Int × Int) × σ
  /-- Result of `ioctl(fd, EVIOCGNAME(..), name)`. -/
  ioctl_EVIOCGNAME : Int → String → σ → (Int × String) × σ
  /-- Result of `ioctl(fd, EVIOCSFF, &e)`. -/
  ioctl_EVIOCSFF : Int → ff_effect → σ → (Int × ff_effect) × σ
  /-- Result of `ioctl(fd, EVIOCRMFF, id)`. -/
  ioctl_EVIOCRMFF : Int → Int → σ → Int × σ
  /-- Result of `scandir(dir, &nameList, nameFilter, alphasort)`: `none` for a
  negative return, otherwise the entry names in the order delivered. -/
  scandir : String → σ → Option (List String) × σ
  /-- Whether `malloc` of the given number of bytes returns non-`NULL`. -/
  malloc : Nat → σ → Bool × σ
  /-- The value of `sizeof(Shake_Device)` on the target. -/
  sizeofDevice : Nat

/-- What an embedded function hands back: its C return value, the transport
calls it issued (oldest first) and the state of the operating system after. -/
structure Res (σ α : Type) where
  ret : α
  trace : List Call
  s : σ

/-! ## Device handle -/

/-- The `Shake_Device` record (`shake_private.h`), with the fields the source
uses. `features` is the array `unsigned long features[..]`, one entry per word. -/
structure Shake_Device where
  id : Nat
  node : Option String
  fd : Int
  features : List Nat
  capacity : Int
  name : String
  deriving DecidableEq, Repr

/-! ## Playback controller: gain and autocenter -/

/-- The expression `0xFFFFUL * level / 100` stored into the `__s32` field
`value`: `level` is converted to `unsigned long`, the product and the quotient
are taken in `unsigned long`. -/
def scaleLevel (ulongBits : Nat) (level : Int) : Int :=
  toS32 (toUnsigned ulongBits (0xFFFF * toUnsigned ulongBits level) / 100)

/-- Embedding of `Shake_SetGain`; `ie` is the uninitialised local. -/
def Shake_SetGain {σ : Type} (E : Env σ) (ie : input_event)
    (dev : Option Shake_Device) (gain : Int) (s : σ) : Res σ Int :=
  match dev with
  | none => ⟨SHAKE_ERROR, [], s⟩
  | some d =>
    let gain := if gain < 0 then 0 else gain
    let gain := if gain > 100 then 100 else gain
    let ie := { ie with type := toU16 EV_FF }
    let ie := { ie with code := toU16 FF_GAIN }
    let ie := { ie with value := scaleLevel E.ulongBits gain }
    let w := E.sys_write d.fd ie s
    if w.1 = -1 then ⟨SHAKE_ERROR, [Call.sys_write d.fd ie], w.2⟩
    else ⟨SHAKE_OK, [Call.sys_write d.fd ie], w.2⟩

/-- Embedding of `Shake_SetAutocenter`; `ie` is the uninitialised local. -/
def Shake_SetAutocenter {σ : Type} (E : Env σ) (ie : input_event)
    (dev : Option Shake_Device) (autocenter : Int) (s : σ) : Res σ Int :=
  match dev with
  | none => ⟨SHAKE_ERROR, [], s⟩
  | some d =>
    let autocenter := if autocenter < 0 then 0 else autocenter
    let autocenter := if autocenter > 100 then 100 else autocenter
    let ie := { ie with type := toU16 EV_FF }
    let ie := { ie with code := toU16 FF_AUTOCENTER }
    let ie := { ie with value := scaleLevel E.ulongBits autocenter }
    let w := E.sys_write d.fd ie s
    if w.1 = -1 then ⟨SHAKE_ERROR, [Call.sys_write d.fd ie], w.2⟩
    else ⟨SHAKE_OK, [Call.sys_write d.fd ie], w.2⟩

/-! ## Playback controller: play, stop, erase -/

/-- Embedding of `Shake_Play`; `play` is the uninitialised local. -/
def Shake_Play {σ : Type} (E : Env σ) (play : input_event)
    (dev : Option Shake_Device) (id : Int) (s : σ) : Res σ Int :=
  match dev with
  | none => ⟨SHAKE_ERROR, [], s⟩
  | some d =>
    if id < 0 then ⟨SHAKE_ERROR, [], s⟩
    else
      let play := { play with type := toU16 EV_FF }
      let play := { play with code := toU16 id }
      let play := { play with value := toS32 FF_STATUS_PLAYING }
      let w := E.sys_write d.fd play s
      if w.1 = -1 then ⟨SHAKE_ERROR, [Call.sys_write d.fd play], w.2⟩
      else ⟨SHAKE_OK, [Call.sys_write d.fd play], w.2⟩

/-- Embedding of `Shake_Stop`; `stop` is the uninitialised local. -/
def Shake_Stop {σ : Type} (E : Env σ) (stop : input_event)
    (dev : Option Shake_Device) (id : Int) (s : σ) : Res σ Int :=
  match dev with
  | none => ⟨SHAKE_ERROR, [], s⟩
  | some d =>
    if id < 0 then ⟨SHAKE_ERROR, [], s⟩
    else
      let stop := { stop with type := toU16 EV_FF }
      let stop := { stop with code := toU16 id }
      let stop := { stop with value := toS32 FF_STATUS_STOPPED }
      let w := E.sys_write d.fd stop s
      if w.1 = -1 then ⟨SHAKE_ERROR, [Call.sys_write d.fd stop], w.2⟩
      else ⟨SHAKE_OK, [Call.sys_write d.fd stop], w.2⟩

/-- Embedding of `Shake_EraseEffect`. -/
def Shake_EraseEffect {σ : Type} (E : Env σ)
    (dev : Option Shake_Device) (id : Int) (s : σ) : Res σ Int :=
  match dev with
  | none => ⟨SHAKE_ERROR, [], s⟩
  | some d =>
    if id < 0 then ⟨SHAKE_ERROR, [], s⟩
    else
      let r := E.ioctl_EVIOCRMFF d.fd id s
      if r.1 = -1 then ⟨SHAKE_ERROR, [Call.ioctl_EVIOCRMFF d.fd id], r.2⟩
      else ⟨SHAKE_OK, [Call.ioctl_EVIOCRMFF d.fd id], r.2⟩

/-! ## Effect codec -/

/-- The caller-facing `Shake_Envelope`. -/
structure Shake_Envelope where
  attackLength : Int
  attackLevel : Int
  fadeLength : Int
  fadeLevel : Int
  deriving DecidableEq, Repr

/-- The caller-facing `Shake_EffectRumble`. -/
structure Shake_EffectRumble where
  strongMagnitude : Int
  weakMagnitude : Int
  deriving DecidableEq, Repr

/-- The caller-facing `Shake_EffectPeriodic`. -/
structure Shake_EffectPeriodic where
  waveform : Int
  period : Int
  magnitude : Int
  offset : Int
  phase : Int
  envelope : Shake_Envelope
  deriving DecidableEq, Repr

/-- The caller-facing `Shake_EffectConstant`. -/
structure Shake_EffectConstant where
  level : Int
  envelope : Shake_Envelope
  deriving DecidableEq, Repr

/-- The caller-facing `Shake_EffectRamp`. -/
structure Shake_EffectRamp where
  startLevel : Int
  endLevel : Int
  envelope : Shake_Envelope
  deriving DecidableEq, Repr

/-- The union `u` of `Shake_Effect`, one record per view as for `ff_union`. -/
structure Shake_EffectUnion where
  rumble : Shake_EffectRumble
  periodic : Shake_EffectPeriodic
  constant : Shake_EffectConstant
  ramp : Shake_EffectRamp
  deriving DecidableEq, Repr

/-- The caller-facing `Shake_Effect` (`shake.h`), with the fields the source
reads. -/
structure Shake_Effect where
  type : Int
  id : Int
  direction : Int
  length : Int
  delay : Int
  u : Shake_EffectUnion
  deriving DecidableEq, Repr

/-- The `if`/`else if` chain of `Shake_UploadEffect` filling the local record
`e` (uninitialised on entry); `none` is the final `else` (unsupported effect).
Each assignment converts to the type of the native field. -/
def Shake_UploadEffect_fill (H : Shake_h) (e : ff_effect) (effect : Shake_Effect) :
    Option ff_effect :=
  if effect.type = H.SHAKE_EFFECT_RUMBLE then
    let e := { e with type := toU16 FF_RUMBLE }
    let e := { e with id := toS16 effect.id }
    let e := { e with u.rumble.strong_magnitude := toU16 effect.u.rumble.strongMagnitude }
    let e := { e with u.rumble.weak_magnitude := toU16 effect.u.rumble.weakMagnitude }
    let e := { e with replay.delay := toU16 effect.delay }
    let e := { e with replay.length := toU16 effect.length }
    some e
  else if effect.type = H.SHAKE_EFFECT_PERIODIC then
    let e := { e with type := toU16 FF_PERIODIC }
    let e := { e with id := toS16 effect.id }
    let e := { e with u.periodic.waveform := toU16 (FF_SQUARE + effect.u.periodic.waveform) }
    let e := { e with u.periodic.period := toU16 effect.u.periodic.period }
    let e := { e with u.periodic.magnitude := toS16 effect.u.periodic.magnitude }
    let e := { e with u.periodic.offset := toS16 effect.u.periodic.offset }
    let e := { e with u.periodic.phase := toU16 effect.u.periodic.phase }
    let e := { e with u.periodic.envelope.attack_length :=
                        toU16 effect.u.periodic.envelope.attackLength }
    let e := { e with u.periodic.envelope.attack_level :=
                        toU16 effect.u.periodic.envelope.attackLevel }
    let e := { e with u.periodic.envelope.fade_length :=
                        toU16 effect.u.periodic.envelope.fadeLength }
    let e := { e with u.periodic.envelope.fade_level :=
                        toU16 effect.u.periodic.envelope.fadeLevel }
    let e := { e with trigger.button := toU16 0 }
    let e := { e with trigger.interval := toU16 0 }
    let e := { e with direction := toU16 effect.direction }
    let e := { e with replay.delay := toU16 effect.delay }
    let e := { e with replay.length := toU16 effect.length }
    some e
  else if effect.type = H.SHAKE_EFFECT_CONSTANT then
    let e := { e with type := toU16 FF_CONSTANT }
    let e := { e with id := toS16 effect.id }
    let e := { e with u.constant.level := toS16 effect.u.constant.level }
    let e := { e with u.constant.envelope.attack_length :=
                        toU16 effect.u.constant.envelope.attackLength }
    let e := { e with u.constant.envelope.attack_level :=
                        toU16 effect.u.constant.envelope.attackLevel }
    let e := { e with u.constant.envelope.fade_length :=
                        toU16 effect.u.constant.envelope.fadeLength }
    let e := { e with u.constant.envelope.fade_level :=
                        toU16 effect.u.constant.envelope.fadeLevel }
    let e := { e with trigger.button := toU16 0 }
    let e := { e with trigger.interval := toU16 0 }
    let e := { e with replay.delay := toU16 effect.delay }
    let e := { e with replay.length := toU16 effect.length }
    some e
  else if effect.type = H.SHAKE_EFFECT_RAMP then
    let e := { e with type := toU16 FF_RAMP }
    let e := { e with id := toS16 effect.id }
    let e := { e with u.ramp.start_level := toS16 effect.u.ramp.startLevel }
    let e := { e with u.ramp.end_level := toS16 effect.u.ramp.endLevel }
    let e := { e with u.ramp.envelope.attack_length :=
                        toU16 effect.u.ramp.envelope.attackLength }
    let e := { e with u.ramp.envelope.attack_level :=
                        toU16 effect.u.ramp.envelope.attackLevel }
    let e := { e with u.ramp.envelope.fade_length :=
                        toU16 effect.u.ramp.envelope.fadeLength }
    let e := { e with u.ramp.envelope.fade_level :=
                        toU16 effect.u.ramp.envelope.fadeLevel }
    let e := { e with trigger.button := toU16 0 }
    let e := { e with trigger.interval := toU16 0 }
    let e := { e with replay.delay := toU16 effect.delay }
    let e := { e with replay.length := toU16 effect.length }
    some e
  else
    none

/-- Embedding of `Shake_UploadEffect`; `e` is the uninitialised local. -/
def Shake_UploadEffect {σ : Type} (H : Shake_h) (E : Env σ) (e : ff_effect)
    (dev : Option Shake_Device) (effect : Option Shake_Effect) (s : σ) : Res σ Int :=
  match dev with
  | none => ⟨SHAKE_ERROR, [], s⟩
  | some d =>
    match effect with
    | none => ⟨SHAKE_ERROR, [], s⟩
    | some effect =>
      if effect.id < -1 then ⟨SHAKE_ERROR, [], s⟩
      else
        match Shake_UploadEffect_fill H e effect with
        | none => ⟨SHAKE_ERROR, [], s⟩
        | some e =>
          let r := E.ioctl_EVIOCSFF d.fd e s
          if r.1.1 = -1 then ⟨SHAKE_ERROR, [Call.ioctl_EVIOCSFF d.fd e], r.2⟩
          else ⟨r.1.2.id, [Call.ioctl_EVIOCSFF d.fd e], r.2⟩

/-- Embedding of `Shake_QueryWaveformSupport`. The macro `test_bit` of
`shake_private.h` is not among the sources and is a parameter; `SHAKE_TEST`
maps non-zero to true. -/
def Shake_QueryWaveformSupport (test_bit : Int → List Nat → Int)
    (dev : Shake_Device) (waveform : Int) : Bool :=
  if test_bit (FF_SQUARE + waveform) dev.features ≠ 0 then true else false

/-- Embedding of `Shake_QueryEffectSupport`, with `test_bit` as above. -/
def Shake_QueryEffectSupport (test_bit : Int → List Nat → Int)
    (dev : Shake_Device) (type : Int) : Bool :=
  if test_bit (FF_RUMBLE + type) dev.features ≠ 0 then true else false

/-! ## Capability prober -/

/-- What a function working on `*dev` hands back: its status, the contents of
`*dev` after the call (`none` for a `NULL` pointer), the transport calls it
issued and the state of the operating system after. -/
structure DevRes (σ : Type) where
  status : Int
  dev : Option Shake_Device
  trace : List Call
  s : σ

/-- The loop `for (i = 0; i < size; ++i) if (dev->features[i]) break;` of
`Shake_Query`, started at `i` with `fuel` iterations left; yields the final `i`. -/
def Shake_Query_scan (features : List Nat) (size : Nat) : Nat → Nat → Nat
  | 0, i => i
  | fuel + 1, i =>
    if i < size then
      if features.getD i 0 ≠ 0 then i
      else Shake_Query_scan features size fuel (i + 1)
    else i

/-- Embedding of `Shake_Query`. `size` is the number of words of the array
`dev->features`. -/
def Shake_Query {σ : Type} (E : Env σ) (dev : Option Shake_Device) (s : σ) : DevRes σ :=
  match dev with
  | none => ⟨SHAKE_ERROR, none, [], s⟩
  | some d =>
    let size := d.features.length
    let r1 := E.ioctl_EVIOCGBIT d.fd d.features s
    let d := { d with features := r1.1.2 }
    if r1.1.1 = -1 then ⟨SHAKE_ERROR, some d, [Call.ioctl_EVIOCGBIT d.fd], r1.2⟩
    else
      let i := Shake_Query_scan d.features size size 0
      if i ≥ size then ⟨SHAKE_ERROR, some d, [Call.ioctl_EVIOCGBIT d.fd], r1.2⟩
      else
        let r2 := E.ioctl_EVIOCGEFFECTS d.fd d.capacity r1.2
        let d := { d with capacity := r2.1.2 }
        if r2.1.1 = -1 then
          ⟨SHAKE_ERROR, some d, [Call.ioctl_EVIOCGBIT d.fd, Call.ioctl_EVIOCGEFFECTS d.fd], r2.2⟩
        else if d.capacity ≤ 0 then
          ⟨SHAKE_ERROR, some d, [Call.ioctl_EVIOCGBIT d.fd, Call.ioctl_EVIOCGEFFECTS d.fd], r2.2⟩
        else
          let r3 := E.ioctl_EVIOCGNAME d.fd d.name r2.2
          let d := { d with name := r3.1.2 }
          let d := if r3.1.1 = -1 then { d with name := "Unknown" } else d
          ⟨SHAKE_OK, some d,
            [Call.ioctl_EVIOCGBIT d.fd, Call.ioctl_EVIOCGEFFECTS d.fd, Call.ioctl_EVIOCGNAME d.fd],
            r3.2⟩

/-- Embedding of `Shake_Probe`. -/
def Shake_Probe {σ : Type} (E : Env σ) (dev : Option Shake_Device) (s : σ) : DevRes σ :=
  match dev with
  | none => ⟨SHAKE_ERROR, none, [], s⟩
  | some d =>
    match d.node with
    | none => ⟨SHAKE_ERROR, some d, [], s⟩
    | some node =>
      let o := E.sys_open node s
      let d := { d with fd := o.1 }
      if d.fd = 0 then ⟨SHAKE_ERROR, some d, [Call.sys_open node], o.2⟩
      else
        let q := Shake_Query E (some d) o.2
        let isHaptic : Int := if q.status = 0 then 1 else 0
        let d := q.dev.getD d
        let c := E.sys_close d.fd q.s
        let closed := Call.sys_close d.fd
        let d := { d with fd := c.1 }
        ⟨if isHaptic ≠ 0 then SHAKE_OK else SHAKE_ERROR, some d,
          Call.sys_open node :: q.trace ++ [closed], c.2⟩

/-! ## Device registry -/

/-- Modelled from the spec: `listElementPrepend` (`common/helpers.c`) is not
among the sources. Devices "are stored most-recently-discovered-first": the new
element becomes the head. The element is created together with its item, which
the source attaches in the two statements that follow the call:
`malloc(sizeof(Shake_Device))`, whose outcome `Shake_Init_loop` consults, and
`memcpy`. -/
def listElementPrepend {α : Type} (head : List α) (item : α) : List α := item :: head

/-- Modelled from the spec: `listElementGet` (`common/helpers.c`) is not among
the sources. It yields the element at an "internal position" counted from the
head, `none` (a `NULL` pointer) when the list is shorter. -/
def listElementGet {α : Type} (head : List α) (id : Nat) : Option α := head.get? id

/-- The globals `listHead` and `numOfDevices`. An element of `listHead` is a
list element together with the `Shake_Device` its `item` points to. -/
structure Registry where
  listHead : List Shake_Device
  numOfDevices : Nat
  deriving DecidableEq, Repr

/-- What `Shake_Init` hands back when it returns. -/
structure InitRes (σ : Type) where
  status : Int
  reg : Registry
  trace : List Call
  s : σ

/-- The local `dev` of `Shake_Init` in iteration `i`, once the path built from
`SHAKE_DIR_NODES`, "/" and the entry name is stored in `dev.node`; `uninit i`
is the indeterminate initial contents of the local. -/
def Shake_Init_dev (H : Shake_h) (uninit : Nat → Shake_Device) (i : Nat) (d_name : String) :
    Shake_Device :=
  { uninit i with node := some (H.SHAKE_DIR_NODES ++ "/" ++ d_name) }

/-- The `for` loop of `Shake_Init` over the remaining entries of `nameList`,
`i` being the loop counter. The result `none` stands for the run in which
`malloc(sizeof(Shake_Device))` returns `NULL`: the source does not test the
pointer, and `memcpy(listHead->item, &dev, ..)` writes through it (undefined
behaviour, the function does not return). -/
def Shake_Init_loop {σ : Type} (H : Shake_h) (E : Env σ) (uninit : Nat → Shake_Device) :
    List String → Nat → Registry → σ → Option (InitRes σ)
  | [], _, reg, s => some ⟨SHAKE_OK, reg, [], s⟩
  | d_name :: rest, i, reg, s =>
    let m := E.malloc (H.SHAKE_DIR_NODES.utf8ByteSize + 1 + d_name.utf8ByteSize + 1) s
    if m.1 = false then some ⟨SHAKE_ERROR, reg, [], m.2⟩
    else
      let dev := Shake_Init_dev H uninit i d_name
      let p := Shake_Probe E (some dev) m.2
      if p.status = SHAKE_OK then
        let dev := p.dev.getD dev
        let dev := { dev with id := reg.numOfDevices }
        let item := E.malloc E.sizeofDevice p.s
        if item.1 = false then none
        else
          let reg := { reg with listHead := listElementPrepend reg.listHead dev }
          let reg := { reg with numOfDevices := (reg.numOfDevices + 1) % 2 ^ 32 }
          (Shake_Init_loop H E uninit rest (i + 1) reg item.2).map
            (fun r => ⟨r.status, r.reg, p.trace ++ r.trace, r.s⟩)
      else
        (Shake_Init_loop H E uninit rest (i + 1) reg p.s).map
          (fun r => ⟨r.status, r.reg, p.trace ++ r.trace, r.s⟩)

/-- Embedding of `Shake_Init`; `none` as for `Shake_Init_loop`. -/
def Shake_Init {σ : Type} (H : Shake_h) (E : Env σ) (uninit : Nat → Shake_Device)
    (reg : Registry) (s : σ) : Option (InitRes σ) :=
  let reg := { reg with numOfDevices := 0 }
  let sd := E.scandir H.SHAKE_DIR_NODES s
  match sd.1 with
  | none => some ⟨SHAKE_ERROR, reg, [], sd.2⟩
  | some nameList => Shake_Init_loop H E uninit nameList 0 reg sd.2

/-- Embedding of `Shake_NumOfDevices`. -/
def Shake_NumOfDevices (reg : Registry) : Int := toS32 reg.numOfDevices

/-- What `Shake_Open` hands back: the pointer returned (`none` for `NULL`,
otherwise the device it points to, as it is after the call), the registry, the
transport calls issued and the state of the operating system after. -/
structure OpenRes (σ : Type) where
  ret : Option Shake_Device
  reg : Registry
  trace : List Call
  s : σ

/-- Embedding of `Shake_Open`. The outer `none` stands for the dereference of a
`NULL` element in `element->item`. An `item` pointer is never `NULL` in the
registry, so the test `!dev` is false. -/
def Shake_Open {σ : Type} (E : Env σ) (reg : Registry) (id : Nat) (s : σ) :
    Option (OpenRes σ) :=
  if id ≥ reg.numOfDevices then some ⟨none, reg, [], s⟩
  else
    let pos := usub32 (usub32 reg.numOfDevices 1) id
    match listElementGet reg.listHead pos with
    | none => none
    | some dev =>
      match dev.node with
      | none => some ⟨none, reg, [], s⟩
      | some node =>
        let o := E.sys_open node s
        let dev := { dev with fd := o.1 }
        let reg := { reg with listHead := reg.listHead.set pos dev }
        some ⟨if dev.fd ≠ 0 then some dev else none, reg, [Call.sys_open node], o.2⟩

/-- Embedding of `Shake_Close`. The result of `close` is discarded and
`dev->fd` keeps its value. -/
def Shake_Close {σ : Type} (E : Env σ) (dev : Option Shake_Device) (s : σ) : Res σ Int :=
  match dev with
  | none => ⟨SHAKE_ERROR, [], s⟩
  | some d =>
    let c := E.sys_close d.fd s
    ⟨SHAKE_OK, [Call.sys_close d.fd], c.2⟩

/-- Whether the storage of the chain `listHead` points to (its elements, their
items and their path strings) is still allocated or has been passed to `free`. -/
inductive Storage where
  | allocated
  | released
  deriving DecidableEq, Repr

/-- What the `while` loop of `Shake_Quit` does: the transport calls issued, the
path strings passed to `free` (in order) and the state of the operating system
after. -/
structure QuitLoopRes (σ : Type) where
  trace : List Call
  freed : List String
  s : σ

/-- The `while (curElem)` loop of `Shake_Quit` over the chain from `curElem` on. -/
def Shake_Quit_loop {σ : Type} (E : Env σ) : List Shake_Device → σ → QuitLoopRes σ
  | [], s => ⟨[], [], s⟩
  | dev :: next, s =>
    let c := Shake_Close E (some dev) s
    let freed := match dev.node with
      | some node => [node]
      | none => []
    let r := Shake_Quit_loop E next c.s
    ⟨c.trace ++ r.trace, freed ++ r.freed, r.s⟩

/-- Modelled from the spec: `listElementDeleteAll` (`common/helpers.c`) is not
among the sources. `Quit` "releases the registry storage" through it: every
element of the chain it is given is released. It yields the state of the
chain's storage after the call and the number of elements released. -/
def listElementDeleteAll {α : Type} (head : List α) : Storage × Nat :=
  (Storage.released, head.length)

/-- What `Shake_Quit` hands back: the globals after the call, the state of the
storage `listHead` points to, the transport calls issued, the path strings
passed to `free`, the number of list elements released by
`listElementDeleteAll` and the state of the operating system after. -/
structure QuitRes (σ : Type) where
  reg : Registry
  storage : Storage
  trace : List Call
  freed : List String
  deleted : Nat
  s : σ

/-- Embedding of `Shake_Quit`. `storage` tells whether the chain `listHead`
points to is still allocated; the result `none` stands for a call that reads
released storage (undefined behaviour). A `NULL` `listHead` is the empty list.
The function assigns neither `listHead` nor `numOfDevices`, and discards what
`listElementDeleteAll` returns. -/
def Shake_Quit {σ : Type} (E : Env σ) (reg : Registry) (storage : Storage) (s : σ) :
    Option (QuitRes σ) :=
  match reg.listHead with
  | [] => some ⟨reg, storage, [], [], 0, s⟩
  | dev :: next =>
    match storage with
    | Storage.released => none
    | Storage.allocated =>
      let r := Shake_Quit_loop E (dev :: next) s
      let del := listElementDeleteAll (dev :: next)
      some ⟨reg, del.1, r.trace, r.freed, del.2, r.s⟩

/-- The contents of a `Shake_Effect` after `memset(effect, 0, sizeof(*effect))`. -/
def Shake_Effect_zero : Shake_Effect :=
  { type := 0, id := 0, direction := 0, length := 0, delay := 0,
    u := { rumble := ⟨0, 0⟩, periodic := ⟨0, 0, 0, 0, 0, ⟨0, 0, 0, 0⟩⟩,
           constant := ⟨0, ⟨0, 0, 0, 0⟩⟩, ramp := ⟨0, 0, ⟨0, 0, 0, 0⟩⟩ } }

/-- Embedding of `Shake_InitEffect`: the status returned and the contents of
`*effect` after the call (`none` for a `NULL` pointer). -/
def Shake_InitEffect (H : Shake_h) (effect : Option Shake_Effect) (type : Int) :
    Int × Option Shake_Effect :=
  match effect with
  | none => (SHAKE_ERROR, none)
  | some _ =>
    let effect := Shake_Effect_zero
    if type < 0 ∨ type ≥ H.SHAKE_EFFECT_COUNT then (SHAKE_ERROR, some effect)
    else
      let effect := { effect with type := type }
      let effect := { effect with id := -1 }
      (SHAKE_OK, some effect)

/-! ## Reference functions, worded as in the specification -/

/-- The level "clamped to `[0,100]`". -/
def clampPercent (level : Int) : Int := max 0 (min level 100)

/-- The scaling rule as the specification words it: `round(0xFFFF * c / 100)`,
rounding to the nearest integer. -/
def roundScale (c : Int) : Int := round ((0xFFFF * c : ℚ) / 100)

/-- The scaling rule with the quotient rounded towards zero. -/
def floorScale (c : Int) : Int := ⌊(0xFFFF * c : ℚ) / 100⌋

/-- The acceptance rule as the specification words it, for a device with
handle `fd` whose record holds `features` and `capacity` when the transport is
in state `s`: the feature-bits request succeeds with a bitmask that has at
least one non-zero word, and the capacity request that follows succeeds with a
capacity above 0. -/
def answersAccept {σ : Type} (E : Env σ) (fd : Int) (features : List Nat) (capacity : Int)
    (s : σ) : Prop :=
  (E.ioctl_EVIOCGBIT fd features s).1.1 ≠ -1
    ∧ (∃ i, i < features.length ∧ (E.ioctl_EVIOCGBIT fd features s).1.2.getD i 0 ≠ 0)
    ∧ (E.ioctl_EVIOCGEFFECTS fd capacity (E.ioctl_EVIOCGBIT fd features s).2).1.1 ≠ -1
    ∧ 0 < (E.ioctl_EVIOCGEFFECTS fd capacity (E.ioctl_EVIOCGBIT fd features s).2).1.2

instance answersAccept.instDecidable {σ : Type} (E : Env σ) (fd : Int) (features : List Nat)
    (capacity : Int) (s : σ) : Decidable (answersAccept E fd features capacity s) := by
  unfold answersAccept
  infer_instance

/-- The candidates the prober accepted, in enumeration order: the device paths
built from the entry names whose probe returned `SHAKE_OK` (the enumeration
ends at a failed allocation). -/
def acceptedCandidates {σ : Type} (H : Shake_h) (E : Env σ) (uninit : Nat → Shake_Device) :
    List String → Nat → σ → List String
  | [], _, _ => []
  | d_name :: rest, i, s =>
    let m := E.malloc (H.SHAKE_DIR_NODES.utf8ByteSize + 1 + d_name.utf8ByteSize + 1) s
    if m.1 = false then []
    else
      let p := Shake_Probe E (some (Shake_Init_dev H uninit i d_name)) m.2
      if p.status = SHAKE_OK then
        let item := E.malloc E.sizeofDevice p.s
        (H.SHAKE_DIR_NODES ++ "/" ++ d_name) ::
          (if item.1 = false then []
            else acceptedCandidates H E uninit rest (i + 1) item.2)
      else acceptedCandidates H E uninit rest (i + 1) p.s

/-- Every allocation `Shake_Init` requests while it walks the entries
succeeds: the path buffer of each candidate and, for each candidate the prober
accepts, the storage of its `Shake_Device`. -/
def allocationsSucceed {σ : Type} (H : Shake_h) (E : Env σ) (uninit : Nat → Shake_Device) :
    List String → Nat → σ → Bool
  | [], _, _ => true
  | d_name :: rest, i, s =>
    let m := E.malloc (H.SHAKE_DIR_NODES.utf8ByteSize + 1 + d_name.utf8ByteSize + 1) s
    m.1 &&
      (let p := Shake_Probe E (some (Shake_Init_dev H uninit i d_name)) m.2
       if p.status = SHAKE_OK then
         let item := E.malloc E.sizeofDevice p.s
         item.1 && allocationsSucceed H E uninit rest (i + 1) item.2
       else allocationsSucceed H E uninit rest (i + 1) p.s)

/-- The value is representable in an unsigned 16-bit field (`uint16_t`). -/
abbrev fitsU16 (x : Int) : Prop := 0 ≤ x ∧ x < 65536

/-- The value is representable in a signed 16-bit field (`int16_t`). -/
abbrev fitsS16 (x : Int) : Prop := -32768 ≤ x ∧ x < 32768

/-- The four envelope values are representable in the 16-bit envelope fields. -/
abbrev envelopeFits (env : Shake_Envelope) : Prop :=
  fitsU16 env.attackLength ∧ fitsU16 env.attackLevel
    ∧ fitsU16 env.fadeLength ∧ fitsU16 env.fadeLevel

/-- The four fields of a native envelope equal those of the effect's envelope. -/
abbrev envelopeCopied (native : ff_envelope) (env : Shake_Envelope) : Prop :=
  native.attack_length = env.attackLength ∧ native.attack_level = env.attackLevel
    ∧ native.fade_length = env.fadeLength ∧ native.fade_level = env.fadeLevel

/-- The effect types the codec supports, as enumerator values of the header. -/
def supportedTypes (H : Shake_h) : List Int :=
  [H.SHAKE_EFFECT_RUMBLE, H.SHAKE_EFFECT_PERIODIC, H.SHAKE_EFFECT_CONSTANT,
    H.SHAKE_EFFECT_RAMP]

/-- Modelled from the spec: the enumerators of `Shake_EffectType` are declared
in `shake.h`, which is not among the sources. Section 4.3 has the effect-type
constants "translated by addition of a fixed, type-specific base constant" that
must match the platform's force-feedback numbering; the base the source adds is
`FF_RUMBLE` (0x50), so the enumerator of a type is its platform constant minus
0x50: Rumble 0, Periodic 1, Constant 2, Ramp 7. `SHAKE_EFFECT_COUNT` closes the
enumeration after Ramp. -/
def specHeader : Shake_h :=
  { SHAKE_EFFECT_RUMBLE := 0, SHAKE_EFFECT_PERIODIC := 1, SHAKE_EFFECT_CONSTANT := 2,
    SHAKE_EFFECT_RAMP := 7, SHAKE_EFFECT_COUNT := 8, SHAKE_DIR_NODES := "/dev/input" }

/-- The handles passed to `close` in a trace, in order. -/
def closesOf (trace : List Call) : List Int :=
  trace.filterMap (fun c =>
    match c with
    | Call.sys_close fd => some fd
    | _ => none)

/-! ## Concrete inputs used to instantiate the theorems -/

/-- A transport on which every request succeeds; its state counts the requests
served. The directory holds three nodes; `event1` (opened as handle 4) reports
an all-zero feature mask, every other device (handle 3) reports the rumble and
gain bits, and all report sixteen effect slots and the name "pad". -/
def exEnv : Env Nat where
  ulongBits := 64
  sys_open := fun path s => (if path = "/dev/input/event1" then 4 else 3, s + 1)
  sys_close := fun _ s => (0, s + 1)
  sys_write := fun _ _ s => (24, s + 1)
  ioctl_EVIOCGBIT := fun fd _ s => ((16, if fd = 4 then [0, 0] else [0, 0x100010000]), s + 1)
  ioctl_EVIOCGEFFECTS := fun _ _ s => ((0, 16), s + 1)
  ioctl_EVIOCGNAME := fun _ _ s => ((4, "pad"), s + 1)
  ioctl_EVIOCSFF := fun _ e s => ((0, { e with id := if e.id = -1 then 0 else e.id }), s + 1)
  ioctl_EVIOCRMFF := fun _ _ s => (0, s + 1)
  scandir := fun _ s => (some ["event0", "event1", "event2"], s + 1)
  malloc := fun _ s => (true, s)
  sizeofDevice := 312

/-- An arbitrary initial content of a local `struct input_event`. -/
def exEvent : input_event := ⟨(7, 9), 1, 2, 3⟩

/-- An open device handle. -/
def exDevice : Shake_Device :=
  { id := 0, node := some "/dev/input/event0", fd := 3, features := [0, 0x100010000],
    capacity := 16, name := "pad" }

/-- An arbitrary initial content of the local `dev` of `Shake_Init`. -/
def exUninit : Nat → Shake_Device := fun _ =>
  { id := 99, node := none, fd := -7, features := [5, 6], capacity := -3, name := "junk" }

/-- The transport `exEnv` on which, once 100 requests have been served, every
open fails with -1 (the device nodes are gone or no longer accessible). -/
def exEnvUnplugged : Env Nat :=
  { exEnv with
    sys_open := fun path s => if s < 100 then exEnv.sys_open path s else (-1, s + 1) }

/-- The transport `exEnv` on which, once 100 requests have been served, every
open succeeds with handle 0 (the lowest free descriptor of a process that has
closed its standard input). -/
def exEnvHandleZero : Env Nat :=
  { exEnv with
    sys_open := fun path s => if s < 100 then exEnv.sys_open path s else (0, s + 1) }

/-- An instance of the header constants. -/
def exHeader : Shake_h := ⟨0, 1, 2, 7, 8, "/dev/input"⟩

/-- An arbitrary initial content of a local `struct ff_effect`. -/
def exRecord : ff_effect :=
  { type := 11, id := 12, direction := 13, trigger := ⟨14, 15⟩, replay := ⟨16, 17⟩,
    u := { rumble := ⟨18, 19⟩,
           periodic := ⟨20, 21, 22, 23, 24, ⟨25, 26, 27, 28⟩, 29, 30⟩,
           constant := ⟨31, ⟨32, 33, 34, 35⟩⟩,
           ramp := ⟨36, 37, ⟨38, 39, 40, 41⟩⟩ } }

/-- An all-zero payload of a `Shake_Effect`. -/
def exPayload : Shake_EffectUnion :=
  { rumble := ⟨0, 0⟩, periodic := ⟨0, 0, 0, 0, 0, ⟨0, 0, 0, 0⟩⟩,
    constant := ⟨0, ⟨0, 0, 0, 0⟩⟩, ramp := ⟨0, 0, ⟨0, 0, 0, 0⟩⟩ }

/-- A Rumble effect not yet uploaded, for the header constants `exHeader`. -/
def exRumble : Shake_Effect :=
  { type := 0, id := -1, direction := 0, length := 1000, delay := 50,
    u := { exPayload with rumble := ⟨0xC000, 0x4000⟩ } }

/-- A Periodic effect with waveform value 2, for the header constants
`exHeader`. -/
def exPeriodic : Shake_Effect :=
  { type := 1, id := -1, direction := 0x4000, length := 500, delay := 0,
    u := { exPayload with periodic := ⟨2, 100, 0x3000, 0, 0, ⟨10, 20, 30, 40⟩⟩ } }

/-- A feature-bit test in the usual form, for words of 64 bits. -/
def exTestBit (bit : Int) (array : List Nat) : Int :=
  ((array.getD (bit / 64).toNat 0) >>> (bit % 64).toNat) % 2

/-- The transport `exEnv` on which `malloc` of a path buffer (18 bytes) fails
once 6 requests have been served, that is for the second directory entry. -/
def exEnvNoMemory : Env Nat :=
  { exEnv with malloc := fun n s => (decide (s < 6 ∨ n ≠ 18), s) }

/-- The transport `exEnv` on which `malloc` succeeds for path buffers (18
bytes) only, so that the storage of a `Shake_Device` is never obtained. -/
def exEnvNoDeviceMemory : Env Nat :=
  { exEnv with malloc := fun n s => (decide (n = 18), s) }

/-- A Constant effect not yet uploaded, for the header constants `exHeader`. -/
def exConstant : Shake_Effect :=
  { type := 2, id := -1, direction := 0x8000, length := 250, delay := 5,
    u := { exPayload with constant := ⟨-0x2000, ⟨1, 2, 3, 4⟩⟩ } }

/-- A Ramp effect uploaded before as slot 3, for the header constants
`exHeader`. -/
def exRamp : Shake_Effect :=
  { type := 7, id := 3, direction := 0, length := 750, delay := 0,
    u := { exPayload with ramp := ⟨-0x4000, 0x4000, ⟨5, 6, 7, 8⟩⟩ } }

/-- Another initial content of a local `struct ff_effect`. -/
def exRecordOther : ff_effect :=
  { exRecord with direction := 113, trigger := ⟨114, 115⟩ }

/-- The transport `exEnv` on which every open succeeds with handle 0 (the
lowest free descriptor of a process that has closed its standard input). -/
def exEnvLowestHandle : Env Nat :=
  { exEnv with sys_open := fun _ s => (0, s + 1) }

/-! ## Theorems: gain and autocenter -/

theorem two_pow_le_of_le {w : Nat} (hw : 32 ≤ w) : (4294967296 : Int) ≤ 2 ^ w := by
  have h : (2 : Int) ^ 32 ≤ 2 ^ w := pow_le_pow_right₀ (by norm_num) hw
  simpa using h

/-- On a target whose `unsigned long` has at least 32 bits, the scaling of a
level in `[0,100]` neither wraps nor changes on the store into `value`: it is
the integer quotient. -/
theorem scaleLevel_eq_div {w : Nat} (hw : 32 ≤ w) {c : Int} (h0 : 0 ≤ c) (h1 : c ≤ 100) :
    scaleLevel w c = 0xFFFF * c / 100 := by
  have hp := two_pow_le_of_le hw
  have e1 : c % 2 ^ w = c := Int.emod_eq_of_lt h0 (by omega)
  have e2 : (65535 * c) % 2 ^ w = 65535 * c := Int.emod_eq_of_lt (by omega) (by omega)
  unfold scaleLevel toUnsigned toS32 toSigned
  rw [e1, e2]
  norm_num
  omega

theorem floorScale_eq_div (c : Int) : floorScale c = 0xFFFF * c / 100 := by
  unfold floorScale
  have h := Rat.floor_intCast_div_natCast (0xFFFF * c) 100
  push_cast at h
  simpa using h

/-- The two `if` statements of `Shake_SetGain` / `Shake_SetAutocenter` clamp
to `[0,100]`. -/
theorem clamp_ifs (level : Int) :
    (if (if level < 0 then 0 else level) > 100 then 100
      else (if level < 0 then 0 else level)) = clampPercent level := by
  unfold clampPercent
  split_ifs <;> omega

theorem clampPercent_range (level : Int) :
    0 ≤ clampPercent level ∧ clampPercent level ≤ 100 := by
  unfold clampPercent
  omega

/-- The trace of `Shake_SetGain` on a non-`NULL` device. -/
theorem Shake_SetGain_trace {σ : Type} (E : Env σ) (ie : input_event) (d : Shake_Device)
    (gain : Int) (s : σ) :
    (Shake_SetGain E ie (some d) gain s).trace =
      [Call.sys_write d.fd { time := ie.time, type := toU16 EV_FF, code := toU16 FF_GAIN,
                             value := scaleLevel E.ulongBits (clampPercent gain) }] := by
  simp only [Shake_SetGain, clamp_ifs]
  split_ifs <;> rfl

/-- The trace of `Shake_SetAutocenter` on a non-`NULL` device. -/
theorem Shake_SetAutocenter_trace {σ : Type} (E : Env σ) (ie : input_event)
    (d : Shake_Device) (autocenter : Int) (s : σ) :
    (Shake_SetAutocenter E ie (some d) autocenter s).trace =
      [Call.sys_write d.fd { time := ie.time, type := toU16 EV_FF, code := toU16 FF_AUTOCENTER,
                             value := scaleLevel E.ulongBits (clampPercent autocenter) }] := by
  simp only [Shake_SetAutocenter, clamp_ifs]
  split_ifs <;> rfl

/-- C1, as stated, fails at level 50: `Shake_SetGain` sends the value 32767
(0xFFFF * 50 / 100 in integer arithmetic), while rounding 32767.5 to the
nearest integer gives 32768. -/
theorem C1_counterexample_level_50 :
    (Shake_SetGain exEnv exEvent (some exDevice) 50 0).trace =
        [Call.sys_write 3 { time := (7, 9), type := 0x15, code := 0x60, value := 32767 }]
      ∧ roundScale (clampPercent 50) = 32768
      ∧ (Shake_SetGain exEnv exEvent (some exDevice) 50 0).trace ≠
          [Call.sys_write 3 { time := (7, 9), type := 0x15, code := 0x60,
                              value := roundScale (clampPercent 50) }] := by
  have hr : roundScale (clampPercent 50) = 32768 := by
    unfold roundScale clampPercent
    rw [round_eq]
    norm_num
  have ht : (Shake_SetGain exEnv exEvent (some exDevice) 50 0).trace =
      [Call.sys_write 3 { time := (7, 9), type := 0x15, code := 0x60, value := 32767 }] := by
    decide
  refine ⟨ht, hr, ?_⟩
  rw [ht, hr]
  decide

/-- C1 (amended): for every non-`NULL` device and every integer level, on a
target whose `unsigned long` has at least 32 bits, `Shake_SetGain` and
`Shake_SetAutocenter` each send exactly one event, of type `EV_FF` and code
`FF_GAIN` resp. `FF_AUTOCENTER`, whose value is `0xFFFF * c / 100` rounded
towards zero, `c` being the level clamped to `[0,100]`. -/
theorem C1_value_is_truncated_quotient {σ : Type} (E : Env σ) (hw : 32 ≤ E.ulongBits)
    (ie : input_event) (d : Shake_Device) (level : Int) (s : σ) :
    (Shake_SetGain E ie (some d) level s).trace =
        [Call.sys_write d.fd { time := ie.time, type := EV_FF, code := FF_GAIN,
                               value := floorScale (clampPercent level) }]
      ∧ (Shake_SetAutocenter E ie (some d) level s).trace =
        [Call.sys_write d.fd { time := ie.time, type := EV_FF, code := FF_AUTOCENTER,
                               value := floorScale (clampPercent level) }] := by
  have hc := clampPercent_range level
  rw [Shake_SetGain_trace, Shake_SetAutocenter_trace, scaleLevel_eq_div hw hc.1 hc.2,
    floorScale_eq_div]
  exact ⟨rfl, rfl⟩

/-- C1 (amended), instantiated at level 10 on the example transport: the value
sent is 6553. -/
theorem C1_value_is_truncated_quotient_witness :
    32 ≤ exEnv.ulongBits
      ∧ (Shake_SetGain exEnv exEvent (some exDevice) 10 0).trace =
          [Call.sys_write exDevice.fd { time := exEvent.time, type := EV_FF, code := FF_GAIN,
                                        value := floorScale (clampPercent 10) }]
      ∧ floorScale (clampPercent 10) = 6553 :=
  ⟨by decide, (C1_value_is_truncated_quotient exEnv (by decide) exEvent exDevice 10 0).1,
    by rw [floorScale_eq_div]; decide⟩

/-- At level 2 the exact quotient is 1310.7: the value sent, 1310, is further
than one half from it, so no tie-breaking convention makes it the nearest
integer. -/
theorem Shake_SetGain_level_2_not_nearest :
    (Shake_SetGain exEnv exEvent (some exDevice) 2 0).trace =
        [Call.sys_write 3 { time := (7, 9), type := 0x15, code := 0x60, value := 1310 }]
      ∧ (1 : ℚ) / 2 < |(0xFFFF * 2 : ℚ) / 100 - 1310| := by
  refine ⟨by decide, ?_⟩
  norm_num [abs_of_pos]

/-- C2: `Shake_SetGain` and `Shake_SetAutocenter` clamp before scaling. For
every device pointer (`NULL` included), every initial content of the local
event and every state of the transport, a level below 0 gives the very result
of level 0 and a level above 100 the very result of level 100: the same status,
the same event written, the same state of the transport after. -/
theorem C2_out_of_range_level_behaves_as_bound {σ : Type} (E : Env σ) (ie : input_event)
    (dev : Option Shake_Device) (g : Int) (s : σ) (h : g < 0 ∨ 100 < g) :
    Shake_SetGain E ie dev g s = Shake_SetGain E ie dev (if g < 0 then 0 else 100) s
      ∧ Shake_SetAutocenter E ie dev g s
          = Shake_SetAutocenter E ie dev (if g < 0 then 0 else 100) s := by
  have hc : ∀ x : Int, (if (if x < 0 then 0 else x) > 100 then 100
      else (if x < 0 then 0 else x)) = clampPercent x := clamp_ifs
  have he : clampPercent g = clampPercent (if g < 0 then 0 else 100) := by
    unfold clampPercent
    split_ifs <;> omega
  cases dev with
  | none => exact ⟨rfl, rfl⟩
  | some d =>
    constructor
    · simp only [Shake_SetGain, hc, he]
    · simp only [Shake_SetAutocenter, hc, he]

/-- C2 at the two inputs the specification names: level -5 behaves as level 0
and level 500 as level 100. -/
theorem C2_out_of_range_level_behaves_as_bound_witness :
    (((-5 : Int) < 0 ∨ (100 : Int) < -5)
        ∧ Shake_SetGain exEnv exEvent (some exDevice) (-5) 0
            = Shake_SetGain exEnv exEvent (some exDevice) 0 0)
      ∧ (((500 : Int) < 0 ∨ (100 : Int) < 500)
        ∧ Shake_SetGain exEnv exEvent (some exDevice) 500 0
            = Shake_SetGain exEnv exEvent (some exDevice) 100 0) :=
  ⟨⟨by decide,
      (C2_out_of_range_level_behaves_as_bound exEnv exEvent (some exDevice) (-5) 0
        (by decide)).1⟩,
    ⟨by decide,
      (C2_out_of_range_level_behaves_as_bound exEnv exEvent (some exDevice) 500 0
        (by decide)).1⟩⟩

/-! ## Theorems: effect upload, play, stop, erase -/

theorem toU16_of_fits {x : Int} (h0 : 0 ≤ x) (h1 : x < 65536) : toU16 x = x := by
  unfold toU16 toUnsigned
  norm_num
  omega

theorem toS16_of_fits {x : Int} (h0 : -32768 ≤ x) (h1 : x < 32768) : toS16 x = x := by
  unfold toS16 toSigned
  norm_num
  omega

/-- The `if`/`else if` chain builds a record exactly for the four supported
types. -/
theorem Shake_UploadEffect_fill_isSome (H : Shake_h) (e : ff_effect) (effect : Shake_Effect) :
    (Shake_UploadEffect_fill H e effect).isSome = true ↔
      (effect.type = H.SHAKE_EFFECT_RUMBLE ∨ effect.type = H.SHAKE_EFFECT_PERIODIC
        ∨ effect.type = H.SHAKE_EFFECT_CONSTANT ∨ effect.type = H.SHAKE_EFFECT_RAMP) := by
  unfold Shake_UploadEffect_fill
  split_ifs <;> simp_all

/-- An accepted effect leads to exactly one transport call, the set-effect
request carrying the record built by the `if`/`else if` chain. -/
theorem Shake_UploadEffect_trace_of_fill {σ : Type} (H : Shake_h) (E : Env σ) (e : ff_effect)
    (d : Shake_Device) (effect : Shake_Effect) (s : σ) (hid : -1 ≤ effect.id)
    (native : ff_effect) (hfill : Shake_UploadEffect_fill H e effect = some native) :
    (Shake_UploadEffect H E e (some d) (some effect) s).trace
      = [Call.ioctl_EVIOCSFF d.fd native] := by
  have hnot : ¬ effect.id < -1 := by omega
  simp only [Shake_UploadEffect, hnot, if_false, hfill]
  split_ifs <;> rfl

/-- A rejected effect leads to the error sentinel without any transport call. -/
theorem Shake_UploadEffect_rejected {σ : Type} (H : Shake_h) (E : Env σ) (e : ff_effect)
    (d : Shake_Device) (effect : Shake_Effect) (s : σ)
    (h : effect.id < -1 ∨ Shake_UploadEffect_fill H e effect = none) :
    Shake_UploadEffect H E e (some d) (some effect) s = ⟨SHAKE_ERROR, [], s⟩ := by
  by_cases hid : effect.id < -1
  · simp only [Shake_UploadEffect, hid, if_true]
  · rcases h with h | h
    · exact absurd h hid
    · simp only [Shake_UploadEffect, hid, if_false, h]

/-- C3: `Shake_UploadEffect` validates before touching the transport. For every
non-`NULL` device and effect: when `effect.id >= -1` and the type is Rumble,
Periodic, Constant or Ramp, the calls issued are exactly one set-effect request
on the device's handle; otherwise (id below -1, or any other type value) the
result is the error sentinel, no transport call is issued and the transport is
left in the state it was in. Hence the request is issued if and only if the
effect passes both checks. -/
theorem C3_upload_validates_before_transport {σ : Type} (H : Shake_h) (E : Env σ)
    (e : ff_effect) (d : Shake_Device) (effect : Shake_Effect) (s : σ) :
    ((-1 ≤ effect.id ∧
        (effect.type = H.SHAKE_EFFECT_RUMBLE ∨ effect.type = H.SHAKE_EFFECT_PERIODIC
          ∨ effect.type = H.SHAKE_EFFECT_CONSTANT ∨ effect.type = H.SHAKE_EFFECT_RAMP)) →
        ∃ native, (Shake_UploadEffect H E e (some d) (some effect) s).trace
          = [Call.ioctl_EVIOCSFF d.fd native])
      ∧ (¬ (-1 ≤ effect.id ∧
        (effect.type = H.SHAKE_EFFECT_RUMBLE ∨ effect.type = H.SHAKE_EFFECT_PERIODIC
          ∨ effect.type = H.SHAKE_EFFECT_CONSTANT ∨ effect.type = H.SHAKE_EFFECT_RAMP)) →
        Shake_UploadEffect H E e (some d) (some effect) s = ⟨SHAKE_ERROR, [], s⟩)
      ∧ ((∃ native, Call.ioctl_EVIOCSFF d.fd native
            ∈ (Shake_UploadEffect H E e (some d) (some effect) s).trace) ↔
          (-1 ≤ effect.id ∧
            (effect.type = H.SHAKE_EFFECT_RUMBLE ∨ effect.type = H.SHAKE_EFFECT_PERIODIC
              ∨ effect.type = H.SHAKE_EFFECT_CONSTANT ∨ effect.type = H.SHAKE_EFFECT_RAMP))) := by
  have hsome := Shake_UploadEffect_fill_isSome H e effect
  have hacc : (-1 ≤ effect.id ∧
        (effect.type = H.SHAKE_EFFECT_RUMBLE ∨ effect.type = H.SHAKE_EFFECT_PERIODIC
          ∨ effect.type = H.SHAKE_EFFECT_CONSTANT ∨ effect.type = H.SHAKE_EFFECT_RAMP)) →
        ∃ native, (Shake_UploadEffect H E e (some d) (some effect) s).trace
          = [Call.ioctl_EVIOCSFF d.fd native] := by
    rintro ⟨hid, ht⟩
    obtain ⟨native, hn⟩ := Option.isSome_iff_exists.mp (hsome.mpr ht)
    exact ⟨native, Shake_UploadEffect_trace_of_fill H E e d effect s hid native hn⟩
  have hrej : ¬ (-1 ≤ effect.id ∧
        (effect.type = H.SHAKE_EFFECT_RUMBLE ∨ effect.type = H.SHAKE_EFFECT_PERIODIC
          ∨ effect.type = H.SHAKE_EFFECT_CONSTANT ∨ effect.type = H.SHAKE_EFFECT_RAMP)) →
        Shake_UploadEffect H E e (some d) (some effect) s = ⟨SHAKE_ERROR, [], s⟩ := by
    intro hno
    apply Shake_UploadEffect_rejected
    by_cases hid : effect.id < -1
    · exact Or.inl hid
    · right
      have ht : ¬ (effect.type = H.SHAKE_EFFECT_RUMBLE ∨ effect.type = H.SHAKE_EFFECT_PERIODIC
          ∨ effect.type = H.SHAKE_EFFECT_CONSTANT ∨ effect.type = H.SHAKE_EFFECT_RAMP) :=
        fun ht => hno ⟨by omega, ht⟩
      rw [← hsome] at ht
      simpa using ht
  refine ⟨hacc, hrej, ?_, ?_⟩
  · rintro ⟨native, hmem⟩
    by_contra hno
    rw [hrej hno] at hmem
    simp at hmem
  · intro hok
    obtain ⟨native, hn⟩ := hacc hok
    exact ⟨native, by rw [hn]; simp⟩

/-- C3 on the example transport: a Rumble effect with id -2 is refused without
any transport call, the same effect with id -1 leads to one set-effect request. -/
theorem C3_upload_validates_before_transport_witness :
    Shake_UploadEffect exHeader exEnv exRecord (some exDevice)
        (some { exRumble with id := -2 }) 0 = ⟨SHAKE_ERROR, [], 0⟩
      ∧ ∃ native, (Shake_UploadEffect exHeader exEnv exRecord (some exDevice)
          (some exRumble) 0).trace = [Call.ioctl_EVIOCSFF exDevice.fd native] :=
  ⟨(C3_upload_validates_before_transport exHeader exEnv exRecord exDevice
      { exRumble with id := -2 } 0).2.1 (by decide),
    (C3_upload_validates_before_transport exHeader exEnv exRecord exDevice
      exRumble 0).1 (by decide)⟩

/-- C4: for every device pointer (`NULL` included) and every id below 0, each
of `Shake_Play`, `Shake_Stop` and `Shake_EraseEffect` returns the error status,
issues no transport call and leaves the transport in the state it was in; for
every id from 0 on and every non-`NULL` device, each issues exactly one
transport call (a write for play and stop, the remove-effect request for
erase). -/
theorem C4_negative_id_no_transport_call {σ : Type} (E : Env σ) (ev : input_event)
    (dev : Option Shake_Device) (d : Shake_Device) (id : Int) (s : σ) :
    (id < 0 →
        Shake_Play E ev dev id s = ⟨SHAKE_ERROR, [], s⟩
        ∧ Shake_Stop E ev dev id s = ⟨SHAKE_ERROR, [], s⟩
        ∧ Shake_EraseEffect E dev id s = ⟨SHAKE_ERROR, [], s⟩)
      ∧ (0 ≤ id →
        (∃ sent, (Shake_Play E ev (some d) id s).trace = [Call.sys_write d.fd sent])
        ∧ (∃ sent, (Shake_Stop E ev (some d) id s).trace = [Call.sys_write d.fd sent])
        ∧ (Shake_EraseEffect E (some d) id s).trace = [Call.ioctl_EVIOCRMFF d.fd id]) := by
  constructor
  · intro hneg
    cases dev with
    | none => exact ⟨rfl, rfl, rfl⟩
    | some d0 =>
      simp only [Shake_Play, Shake_Stop, Shake_EraseEffect, hneg, if_true]
      exact ⟨trivial, trivial, trivial⟩
  · intro hpos
    have hnot : ¬ id < 0 := by omega
    refine ⟨?_, ?_, ?_⟩
    · simp only [Shake_Play, hnot, if_false]
      split_ifs <;> exact ⟨_, rfl⟩
    · simp only [Shake_Stop, hnot, if_false]
      split_ifs <;> exact ⟨_, rfl⟩
    · simp only [Shake_EraseEffect, hnot, if_false]
      split_ifs <;> rfl

/-- C4 on the example transport: id -1 is refused by all three operations
without a transport call, id 0 leads to one call each. -/
theorem C4_negative_id_no_transport_call_witness :
    ((-1 : Int) < 0
        ∧ Shake_Play exEnv exEvent (some exDevice) (-1) 0 = ⟨SHAKE_ERROR, [], 0⟩
        ∧ Shake_Stop exEnv exEvent (some exDevice) (-1) 0 = ⟨SHAKE_ERROR, [], 0⟩
        ∧ Shake_EraseEffect exEnv (some exDevice) (-1) 0 = ⟨SHAKE_ERROR, [], 0⟩)
      ∧ ((0 : Int) ≤ 0
        ∧ (∃ sent, (Shake_Play exEnv exEvent (some exDevice) 0 0).trace
              = [Call.sys_write exDevice.fd sent])
        ∧ (∃ sent, (Shake_Stop exEnv exEvent (some exDevice) 0 0).trace
              = [Call.sys_write exDevice.fd sent])
        ∧ (Shake_EraseEffect exEnv (some exDevice) 0 0).trace
              = [Call.ioctl_EVIOCRMFF exDevice.fd 0]) :=
  ⟨⟨by decide,
      (C4_negative_id_no_transport_call exEnv exEvent (some exDevice) exDevice (-1) 0).1
        (by decide)⟩,
    ⟨by decide,
      (C4_negative_id_no_transport_call exEnv exEvent none exDevice 0 0).2 (by decide)⟩⟩

/-- The record the Rumble branch builds from the uninitialised local `e`. -/
theorem Shake_UploadEffect_fill_rumble (H : Shake_h) (e : ff_effect) (effect : Shake_Effect)
    (htype : effect.type = H.SHAKE_EFFECT_RUMBLE) :
    Shake_UploadEffect_fill H e effect = some
      { type := toU16 FF_RUMBLE, id := toS16 effect.id, direction := e.direction,
        trigger := e.trigger,
        replay := { length := toU16 effect.length, delay := toU16 effect.delay },
        u := { e.u with rumble :=
                { strong_magnitude := toU16 effect.u.rumble.strongMagnitude,
                  weak_magnitude := toU16 effect.u.rumble.weakMagnitude } } } := by
  simp only [Shake_UploadEffect_fill, htype, if_true]

/-- C5: Rumble round trip. For every Rumble effect with id from -1 on whose id,
magnitudes, delay and length are values of their 16-bit field types, the calls
`Shake_UploadEffect` issues are exactly one set-effect request whose native
record has type `FF_RUMBLE`, the effect's id, `strong_magnitude` and
`weak_magnitude` equal to the effect's `strongMagnitude` and `weakMagnitude`,
and replay delay and length equal to the effect's delay and length. -/
theorem C5_rumble_round_trip {σ : Type} (H : Shake_h) (E : Env σ) (e : ff_effect)
    (d : Shake_Device) (effect : Shake_Effect) (s : σ)
    (htype : effect.type = H.SHAKE_EFFECT_RUMBLE)
    (hid : -1 ≤ effect.id) (hidfit : fitsS16 effect.id)
    (hstrong : fitsU16 effect.u.rumble.strongMagnitude)
    (hweak : fitsU16 effect.u.rumble.weakMagnitude)
    (hdelay : fitsU16 effect.delay) (hlength : fitsU16 effect.length) :
    ∃ native, (Shake_UploadEffect H E e (some d) (some effect) s).trace
          = [Call.ioctl_EVIOCSFF d.fd native]
      ∧ native.type = FF_RUMBLE
      ∧ native.id = effect.id
      ∧ native.u.rumble.strong_magnitude = effect.u.rumble.strongMagnitude
      ∧ native.u.rumble.weak_magnitude = effect.u.rumble.weakMagnitude
      ∧ native.replay.delay = effect.delay
      ∧ native.replay.length = effect.length := by
  refine ⟨_, Shake_UploadEffect_trace_of_fill H E e d effect s hid _
    (Shake_UploadEffect_fill_rumble H e effect htype), ?_, ?_, ?_, ?_, ?_, ?_⟩
  · exact toU16_of_fits (by decide) (by decide)
  · exact toS16_of_fits hidfit.1 hidfit.2
  · exact toU16_of_fits hstrong.1 hstrong.2
  · exact toU16_of_fits hweak.1 hweak.2
  · exact toU16_of_fits hdelay.1 hdelay.2
  · exact toU16_of_fits hlength.1 hlength.2

/-- C5 on the example transport, for strong magnitude 0xC000 and weak magnitude
0x4000. -/
theorem C5_rumble_round_trip_witness :
    ∃ native, (Shake_UploadEffect exHeader exEnv exRecord (some exDevice)
          (some exRumble) 0).trace = [Call.ioctl_EVIOCSFF exDevice.fd native]
      ∧ native.type = FF_RUMBLE
      ∧ native.id = exRumble.id
      ∧ native.u.rumble.strong_magnitude = 0xC000
      ∧ native.u.rumble.weak_magnitude = 0x4000
      ∧ native.replay.delay = exRumble.delay
      ∧ native.replay.length = exRumble.length :=
  C5_rumble_round_trip exHeader exEnv exRecord exDevice exRumble 0 (by decide) (by decide)
    (by decide) (by decide) (by decide) (by decide) (by decide)

/-- The record the Periodic branch builds from the uninitialised local `e`. -/
theorem Shake_UploadEffect_fill_periodic (H : Shake_h) (e : ff_effect) (effect : Shake_Effect)
    (hne : H.SHAKE_EFFECT_PERIODIC ≠ H.SHAKE_EFFECT_RUMBLE)
    (htype : effect.type = H.SHAKE_EFFECT_PERIODIC) :
    Shake_UploadEffect_fill H e effect = some
      { type := toU16 FF_PERIODIC, id := toS16 effect.id,
        direction := toU16 effect.direction,
        trigger := { button := toU16 0, interval := toU16 0 },
        replay := { length := toU16 effect.length, delay := toU16 effect.delay },
        u := { e.u with periodic :=
                { waveform := toU16 (FF_SQUARE + effect.u.periodic.waveform),
                  period := toU16 effect.u.periodic.period,
                  magnitude := toS16 effect.u.periodic.magnitude,
                  offset := toS16 effect.u.periodic.offset,
                  phase := toU16 effect.u.periodic.phase,
                  envelope :=
                    { attack_length := toU16 effect.u.periodic.envelope.attackLength,
                      attack_level := toU16 effect.u.periodic.envelope.attackLevel,
                      fade_length := toU16 effect.u.periodic.envelope.fadeLength,
                      fade_level := toU16 effect.u.periodic.envelope.fadeLevel },
                  custom_len := e.u.periodic.custom_len,
                  custom_data := e.u.periodic.custom_data } } } := by
  simp only [Shake_UploadEffect_fill, htype, hne, if_true, if_false]

/-- C6: waveform translation. The enumerators Periodic and Rumble being
distinct, for every Periodic effect with id from -1 on and waveform value `k`
such that `FF_SQUARE + k` is a value of the 16-bit waveform field (every
enumerated waveform is), the native record passed to the transport has waveform
`FF_SQUARE + k`, where `FF_SQUARE` is 0x58; in particular waveform 0 gives
exactly `FF_SQUARE`. `Shake_QueryWaveformSupport` tests the feature bit with
that very index. -/
theorem C6_waveform_translation {σ : Type} (H : Shake_h) (E : Env σ) (e : ff_effect)
    (d : Shake_Device) (effect : Shake_Effect) (s : σ) (test_bit : Int → List Nat → Int)
    (queried : Shake_Device)
    (hne : H.SHAKE_EFFECT_PERIODIC ≠ H.SHAKE_EFFECT_RUMBLE)
    (htype : effect.type = H.SHAKE_EFFECT_PERIODIC)
    (hid : -1 ≤ effect.id)
    (hk : fitsU16 (FF_SQUARE + effect.u.periodic.waveform)) :
    ∃ native, (Shake_UploadEffect H E e (some d) (some effect) s).trace
          = [Call.ioctl_EVIOCSFF d.fd native]
      ∧ native.u.periodic.waveform = FF_SQUARE + effect.u.periodic.waveform
      ∧ FF_SQUARE = 0x58
      ∧ (effect.u.periodic.waveform = 0 → native.u.periodic.waveform = FF_SQUARE)
      ∧ Shake_QueryWaveformSupport test_bit queried effect.u.periodic.waveform
          = decide (test_bit native.u.periodic.waveform queried.features ≠ 0) := by
  have hw : toU16 (FF_SQUARE + effect.u.periodic.waveform)
      = FF_SQUARE + effect.u.periodic.waveform := toU16_of_fits hk.1 hk.2
  refine ⟨_, Shake_UploadEffect_trace_of_fill H E e d effect s hid _
    (Shake_UploadEffect_fill_periodic H e effect hne htype), hw, rfl, ?_, ?_⟩
  · intro h0
    rw [h0, add_zero] at hw
    simp only [h0, add_zero, hw]
  · simp only [hw, Shake_QueryWaveformSupport]
    split_ifs with h <;> simp [h]

/-- C6 on the example transport, for waveform value 2: the native waveform is
0x5a. -/
theorem C6_waveform_translation_witness :
    ∃ native, (Shake_UploadEffect exHeader exEnv exRecord (some exDevice)
          (some exPeriodic) 0).trace = [Call.ioctl_EVIOCSFF exDevice.fd native]
      ∧ native.u.periodic.waveform = FF_SQUARE + 2
      ∧ FF_SQUARE = 0x58
      ∧ (exPeriodic.u.periodic.waveform = 0 → native.u.periodic.waveform = FF_SQUARE)
      ∧ Shake_QueryWaveformSupport exTestBit exDevice 2
          = decide (exTestBit native.u.periodic.waveform exDevice.features ≠ 0) :=
  C6_waveform_translation exHeader exEnv exRecord exDevice exPeriodic 0 exTestBit exDevice
    (by decide) (by decide) (by decide) (by decide)

/-! ## Theorems: capability prober -/

/-- The scan of the feature words ends at `size` or beyond exactly when every
word from `i` on is zero. -/
theorem Shake_Query_scan_ge_iff (features : List Nat) (size : Nat) :
    ∀ fuel i, size ≤ i + fuel →
      (size ≤ Shake_Query_scan features size fuel i ↔
        ∀ j, i ≤ j → j < size → features.getD j 0 = 0) := by
  intro fuel
  induction fuel with
  | zero =>
    intro i h
    simp only [Shake_Query_scan]
    constructor
    · intro _ j hij hj
      omega
    · intro _
      omega
  | succ fuel ih =>
    intro i h
    simp only [Shake_Query_scan]
    by_cases hi : i < size
    · by_cases hw : features.getD i 0 ≠ 0
      · rw [if_pos hi, if_pos hw]
        constructor
        · intro hge
          omega
        · intro hall
          exact absurd (hall i (le_refl i) hi) hw
      · rw [if_pos hi, if_neg hw, ih (i + 1) (by omega)]
        have hz : features.getD i 0 = 0 := by
          by_contra hc
          exact hw hc
        constructor
        · intro hall j hij hj
          by_cases hji : j = i
          · rw [hji]
            exact hz
          · exact hall j (by omega) hj
        · intro hall j hij hj
          exact hall j (by omega) hj
    · rw [if_neg hi]
      constructor
      · intro _ j hij hj
        omega
      · intro _
        omega

/-- The loop of `Shake_Query` finds a non-zero word exactly when there is one. -/
theorem Shake_Query_scan_lt_iff (features : List Nat) (size : Nat) :
    Shake_Query_scan features size size 0 < size ↔
      ∃ i, i < size ∧ features.getD i 0 ≠ 0 := by
  have h := Shake_Query_scan_ge_iff features size size 0 (by omega)
  constructor
  · intro hlt
    by_contra hno
    have : size ≤ Shake_Query_scan features size size 0 := by
      rw [h]
      intro j _ hj
      by_contra hc
      exact hno ⟨j, hj, hc⟩
    omega
  · rintro ⟨i, hi, hne⟩
    by_contra hge
    have hall := h.mp (by omega)
    exact hne (hall i (Nat.zero_le i) hi)

/-- `Shake_Query` returns `SHAKE_OK` exactly under the acceptance rule, and
`SHAKE_ERROR` otherwise. -/
theorem Shake_Query_status {σ : Type} (E : Env σ) (d : Shake_Device) (s : σ) :
    ((Shake_Query E (some d) s).status = SHAKE_OK ↔
        answersAccept E d.fd d.features d.capacity s)
      ∧ ((Shake_Query E (some d) s).status = SHAKE_OK
          ∨ (Shake_Query E (some d) s).status = SHAKE_ERROR) := by
  have hne : SHAKE_ERROR ≠ SHAKE_OK := by decide
  have hscan := Shake_Query_scan_lt_iff (E.ioctl_EVIOCGBIT d.fd d.features s).1.2
    d.features.length
  unfold answersAccept
  simp only [Shake_Query]
  by_cases h1 : (E.ioctl_EVIOCGBIT d.fd d.features s).1.1 = -1
  · simp [h1, hne]
  · by_cases h2 : Shake_Query_scan (E.ioctl_EVIOCGBIT d.fd d.features s).1.2
        d.features.length d.features.length 0 ≥ d.features.length
    · have hno : ¬ ∃ i, i < d.features.length
          ∧ (E.ioctl_EVIOCGBIT d.fd d.features s).1.2.getD i 0 ≠ 0 := by
        rw [← hscan]
        omega
      simp only [h1, h2, if_true, if_false, hne, false_iff]
      exact ⟨fun hc => hno hc.2.1, Or.inr trivial⟩
    · have hyes : ∃ i, i < d.features.length
          ∧ (E.ioctl_EVIOCGBIT d.fd d.features s).1.2.getD i 0 ≠ 0 := by
        rw [← hscan]
        omega
      by_cases h3 : (E.ioctl_EVIOCGEFFECTS d.fd d.capacity
          (E.ioctl_EVIOCGBIT d.fd d.features s).2).1.1 = -1
      · simp [h1, h2, h3, hne]
      · by_cases h4 : (E.ioctl_EVIOCGEFFECTS d.fd d.capacity
            (E.ioctl_EVIOCGBIT d.fd d.features s).2).1.2 ≤ 0
        · have h4n : ¬ 0 < (E.ioctl_EVIOCGEFFECTS d.fd d.capacity
              (E.ioctl_EVIOCGBIT d.fd d.features s).2).1.2 := by omega
          simp [h1, h2, h3, h4, h4n, hne]
        · have h4p : 0 < (E.ioctl_EVIOCGEFFECTS d.fd d.capacity
              (E.ioctl_EVIOCGBIT d.fd d.features s).2).1.2 := by omega
          simp only [h1, h2, h3, h4, if_false, true_iff, not_false_eq_true, ne_eq, true_and,
            true_or, and_true]
          exact ⟨hyes, h4p⟩

/-- `Shake_Query` hands the device back with `id`, `node` and `fd` untouched. -/
theorem Shake_Query_dev {σ : Type} (E : Env σ) (d : Shake_Device) (s : σ) :
    ∃ d1, (Shake_Query E (some d) s).dev = some d1
      ∧ d1.node = d.node ∧ d1.fd = d.fd ∧ d1.id = d.id := by
  simp only [Shake_Query]
  split_ifs <;> exact ⟨_, rfl, rfl, rfl, rfl⟩

/-- `Shake_Probe` on a device with a path: it reports `SHAKE_OK` exactly when
the open yields a non-zero handle and the answers to the queries on that handle
satisfy the acceptance rule; it hands the device back with `id` and `node`
untouched. -/
theorem Shake_Probe_spec {σ : Type} (E : Env σ) (d : Shake_Device) (node : String) (s : σ)
    (hnode : d.node = some node) :
    ((Shake_Probe E (some d) s).status = SHAKE_OK ↔
        ((E.sys_open node s).1 ≠ 0
          ∧ answersAccept E (E.sys_open node s).1 d.features d.capacity (E.sys_open node s).2))
      ∧ ((Shake_Probe E (some d) s).status = SHAKE_OK
          ∨ (Shake_Probe E (some d) s).status = SHAKE_ERROR)
      ∧ ∃ d1, (Shake_Probe E (some d) s).dev = some d1 ∧ d1.node = d.node ∧ d1.id = d.id := by
  have hne : SHAKE_ERROR ≠ SHAKE_OK := by decide
  obtain ⟨id0, node0, fd0, features0, capacity0, name0⟩ := d
  simp only at hnode
  subst hnode
  have hq := Shake_Query_status E
    { id := id0, node := some node, fd := (E.sys_open node s).1, features := features0,
      capacity := capacity0, name := name0 } (E.sys_open node s).2
  obtain ⟨d1, hd1, hn1, -, hi1⟩ := Shake_Query_dev E
    { id := id0, node := some node, fd := (E.sys_open node s).1, features := features0,
      capacity := capacity0, name := name0 } (E.sys_open node s).2
  simp only at hq hn1 hi1
  simp only [Shake_Probe]
  by_cases h0 : (E.sys_open node s).1 = 0
  · simp only [h0, if_true, hne, false_iff, ne_eq, not_true_eq_false, false_and,
      not_false_eq_true, true_and]
    exact ⟨Or.inr trivial, _, rfl, rfl, rfl⟩
  · simp only [h0, if_false, ne_eq, not_false_eq_true, true_and, hd1, Option.getD_some]
    refine ⟨?_, ?_, _, rfl, hn1, hi1⟩
    · rw [← hq.1]
      by_cases hs : (Shake_Query E (some
          { id := id0, node := some node, fd := (E.sys_open node s).1, features := features0,
            capacity := capacity0, name := name0 }) (E.sys_open node s).2).status = 0
      · simp [hs, SHAKE_OK]
      · simp [hs, SHAKE_OK, SHAKE_ERROR]
    · split_ifs <;> simp

/-! ## Theorems: device registry -/

/-- Unsigned subtraction does not wrap when the subtrahend is not larger. -/
theorem usub32_eq_sub {a b : Nat} (hba : b ≤ a) (ha : a < 2 ^ 32) : usub32 a b = a - b := by
  unfold usub32
  norm_num at ha ⊢
  omega

/-- What the loop of `Shake_Init` does to the registry when it returns: the
devices it adds (`devs`, in discovery order) are pushed on the front of the
list one by one, carry the accepted paths and consecutive ids starting at the
count on entry, and the count grows by their number. -/
theorem Shake_Init_loop_spec {σ : Type} (H : Shake_h) (E : Env σ)
    (uninit : Nat → Shake_Device) :
    ∀ (names : List String) (i : Nat) (reg : Registry) (s : σ) (r : InitRes σ),
      reg.numOfDevices + names.length < 2 ^ 32 →
      Shake_Init_loop H E uninit names i reg s = some r →
      ∃ devs : List Shake_Device,
        r.reg.listHead = devs.reverse ++ reg.listHead
        ∧ r.reg.numOfDevices = reg.numOfDevices + devs.length
        ∧ devs.map (fun d => d.node) = (acceptedCandidates H E uninit names i s).map some
        ∧ devs.map (fun d => d.id) = List.range' reg.numOfDevices devs.length := by
  intro names
  induction names with
  | nil =>
    intro i reg s r _ hr
    simp only [Shake_Init_loop, Option.some.injEq] at hr
    subst hr
    exact ⟨[], by simp [acceptedCandidates]⟩
  | cons d_name rest ih =>
    intro i reg s r hb hr
    simp only [List.length_cons] at hb
    by_cases hm : (E.malloc (H.SHAKE_DIR_NODES.utf8ByteSize + 1 + d_name.utf8ByteSize + 1) s).1
        = false
    · simp only [Shake_Init_loop, hm, if_true, Option.some.injEq] at hr
      subst hr
      exact ⟨[], by simp [acceptedCandidates, hm]⟩
    · obtain ⟨-, -, d1, hd1, hn1, -⟩ := Shake_Probe_spec E
        (Shake_Init_dev H uninit i d_name) (H.SHAKE_DIR_NODES ++ "/" ++ d_name)
        (E.malloc (H.SHAKE_DIR_NODES.utf8ByteSize + 1 + d_name.utf8ByteSize + 1) s).2 rfl
      have hn1 : d1.node = some (H.SHAKE_DIR_NODES ++ "/" ++ d_name) := hn1
      by_cases hp : (Shake_Probe E (some (Shake_Init_dev H uninit i d_name))
          (E.malloc (H.SHAKE_DIR_NODES.utf8ByteSize + 1 + d_name.utf8ByteSize + 1) s).2).status
            = SHAKE_OK
      · by_cases hitem : (E.malloc E.sizeofDevice (Shake_Probe E
            (some (Shake_Init_dev H uninit i d_name))
            (E.malloc (H.SHAKE_DIR_NODES.utf8ByteSize + 1 + d_name.utf8ByteSize + 1) s).2).s).1
              = false
        · simp only [Shake_Init_loop, hm, hp, hitem, if_true, if_false, Bool.true_eq_false]
            at hr
          exact absurd hr (by simp)
        · have hmod : (reg.numOfDevices + 1) % 2 ^ 32 = reg.numOfDevices + 1 :=
            Nat.mod_eq_of_lt (by omega)
          simp only [Shake_Init_loop, hm, hp, hitem, hd1, Option.getD_some, hmod, if_true,
            if_false, Bool.true_eq_false, Option.map_eq_some'] at hr
          obtain ⟨r1, hr1, hrr⟩ := hr
          obtain ⟨devs, h1, h2, h3, h4⟩ := ih (i + 1) _ _ r1 (by simp only; omega) hr1
          simp only at h1 h2 h3 h4
          have hreg : r.reg = r1.reg := by rw [← hrr]
          refine ⟨{ d1 with id := reg.numOfDevices } :: devs, ?_, ?_, ?_, ?_⟩
          · rw [hreg, h1]
            simp [listElementPrepend]
          · rw [hreg, h2]
            simp only [List.length_cons]
            omega
          · simp only [acceptedCandidates, hm, hp, hitem, if_true, if_false, List.map_cons, h3,
              hn1, Bool.true_eq_false]
          · simp only [List.map_cons, List.length_cons, List.range'_succ, h4]
      · simp only [Shake_Init_loop, hm, hp, if_false, Bool.true_eq_false,
          Option.map_eq_some'] at hr
        obtain ⟨r1, hr1, hrr⟩ := hr
        obtain ⟨devs, h1, h2, h3, h4⟩ := ih (i + 1) reg _ r1 (by omega) hr1
        have hreg : r.reg = r1.reg := by rw [← hrr]
        refine ⟨devs, ?_, ?_, ?_, h4⟩
        · rw [hreg]
          exact h1
        · rw [hreg]
          exact h2
        · simp only [acceptedCandidates, hm, hp, if_false, Bool.true_eq_false]
          exact h3

/-- The accepted candidates are among the entries listed. -/
theorem acceptedCandidates_length_le {σ : Type} (H : Shake_h) (E : Env σ)
    (uninit : Nat → Shake_Device) :
    ∀ (names : List String) (i : Nat) (s : σ),
      (acceptedCandidates H E uninit names i s).length ≤ names.length := by
  intro names
  induction names with
  | nil =>
    intro i s
    simp [acceptedCandidates]
  | cons d_name rest ih =>
    intro i s
    simp only [acceptedCandidates, List.length_cons]
    split_ifs
    · simp
    · simp
    · simp only [List.length_cons]
      exact Nat.succ_le_succ (ih _ _)
    · exact Nat.le_succ_of_le (ih _ _)

/-- What `Shake_Init` does to the registry when the directory is listed and
the function returns. -/
theorem Shake_Init_spec {σ : Type} (H : Shake_h) (E : Env σ) (uninit : Nat → Shake_Device)
    (reg : Registry) (s : σ) (names : List String) (r : InitRes σ)
    (hdir : (E.scandir H.SHAKE_DIR_NODES s).1 = some names) (hlen : names.length < 2 ^ 31)
    (hinit : Shake_Init H E uninit reg s = some r) :
    ∃ devs : List Shake_Device,
      r.reg.listHead = devs.reverse ++ reg.listHead
      ∧ r.reg.numOfDevices = devs.length
      ∧ devs.length ≤ names.length
      ∧ devs.map (fun d => d.node)
          = (acceptedCandidates H E uninit names 0 (E.scandir H.SHAKE_DIR_NODES s).2).map some
      ∧ devs.map (fun d => d.id) = List.range devs.length := by
  simp only [Shake_Init, hdir] at hinit
  obtain ⟨devs, h1, h2, h3, h4⟩ := Shake_Init_loop_spec H E uninit names 0
    { reg with numOfDevices := 0 } (E.scandir H.SHAKE_DIR_NODES s).2 r
    (by simp only; norm_num at hlen ⊢; omega) hinit
  simp only [Nat.zero_add] at h1 h2 h4
  have hle : devs.length ≤ names.length := by
    have hl := congrArg List.length h3
    simp only [List.length_map] at hl
    rw [hl]
    exact acceptedCandidates_length_le H E uninit names 0 _
  refine ⟨devs, h1, h2, hle, h3, ?_⟩
  rw [h4, List.range_eq_range']

/-- After `Shake_Init` has returned, whatever the registry held before and
whether or not the directory could be listed, the list holds at least
`numOfDevices` elements and the count is below 2^31. -/
theorem Shake_Init_count_le_length {σ : Type} (H : Shake_h) (E : Env σ)
    (uninit : Nat → Shake_Device) (reg : Registry) (s : σ) (r : InitRes σ)
    (hlen : ∀ names, (E.scandir H.SHAKE_DIR_NODES s).1 = some names → names.length < 2 ^ 31)
    (hinit : Shake_Init H E uninit reg s = some r) :
    r.reg.numOfDevices ≤ r.reg.listHead.length ∧ r.reg.numOfDevices < 2 ^ 31 := by
  cases hdir : (E.scandir H.SHAKE_DIR_NODES s).1 with
  | none =>
    simp only [Shake_Init, hdir, Option.some.injEq] at hinit
    subst hinit
    exact ⟨Nat.zero_le _, by norm_num⟩
  | some names =>
    obtain ⟨devs, h1, h2, h3, -, -⟩ :=
      Shake_Init_spec H E uninit reg s names r hdir (hlen names hdir) hinit
    rw [h1, h2]
    have := hlen names hdir
    simp only [List.length_append, List.length_reverse]
    omega

/-- `Shake_Open` on an id below the count, in a registry whose list is long
enough: the position computed is `numOfDevices - 1 - id`, the lookup finds the
element there and the function returns. -/
theorem Shake_Open_valid_id {σ : Type} (E : Env σ) (reg : Registry) (id : Nat) (t : σ)
    (hid : id < reg.numOfDevices) (hcount : reg.numOfDevices ≤ reg.listHead.length)
    (hsmall : reg.numOfDevices < 2 ^ 31) :
    usub32 (usub32 reg.numOfDevices 1) id = reg.numOfDevices - 1 - id
      ∧ reg.numOfDevices - 1 - id < reg.listHead.length
      ∧ ∃ dev, listElementGet reg.listHead (usub32 (usub32 reg.numOfDevices 1) id) = some dev
          ∧ ∃ res, Shake_Open E reg id t = some res
              ∧ ∀ d, res.ret = some d → d.id = dev.id ∧ d.node = dev.node := by
  have hpos : usub32 (usub32 reg.numOfDevices 1) id = reg.numOfDevices - 1 - id := by
    have hone : usub32 reg.numOfDevices 1 = reg.numOfDevices - 1 :=
      usub32_eq_sub (by omega) (by norm_num at hsmall ⊢; omega)
    rw [hone]
    exact usub32_eq_sub (by omega) (by norm_num at hsmall ⊢; omega)
  have hlt : reg.numOfDevices - 1 - id < reg.listHead.length := by omega
  refine ⟨hpos, hlt, reg.listHead.get ⟨reg.numOfDevices - 1 - id, hlt⟩, ?_, ?_⟩
  · rw [hpos]
    exact List.get?_eq_get hlt
  · have hnot : ¬ id ≥ reg.numOfDevices := by omega
    have hget : listElementGet reg.listHead (reg.numOfDevices - 1 - id)
        = some (reg.listHead.get ⟨reg.numOfDevices - 1 - id, hlt⟩) := List.get?_eq_get hlt
    simp only [Shake_Open, hnot, if_false, hpos, hget]
    cases hnode : (reg.listHead.get ⟨reg.numOfDevices - 1 - id, hlt⟩).node with
    | none =>
      refine ⟨_, rfl, ?_⟩
      intro d hd
      simp at hd
    | some node =>
      refine ⟨_, rfl, ?_⟩
      intro d hd
      simp only at hd
      split_ifs at hd
      simp only [Option.some.injEq] at hd
      subst hd
      exact ⟨rfl, rfl⟩

/-- C7: device ids are dense, zero-based and in discovery order. Starting from
an empty registry, for every list of entry names the directory listing
delivers (fewer than 2^31, the count being an `int`) and every behaviour of the
transport: after `Shake_Init` has returned, the count equals the number of
accepted candidates, the ids stored in the list, read from its far end to its
head, are exactly 0, 1, .., Count-1, and for every `k` below the count the position
`Shake_Open` computes for `k` is `Count - 1 - k`, the element there has id `k`
and the path of the (k+1)-th accepted candidate, and a device `Shake_Open k`
returns is that one. -/
theorem C7_ids_dense_zero_based_discovery_order {σ : Type} (H : Shake_h) (E : Env σ)
    (uninit : Nat → Shake_Device) (n0 : Nat) (s : σ) (names : List String) (r : InitRes σ)
    (hdir : (E.scandir H.SHAKE_DIR_NODES s).1 = some names) (hlen : names.length < 2 ^ 31)
    (hinit : Shake_Init H E uninit ⟨[], n0⟩ s = some r) :
    r.reg.numOfDevices
        = (acceptedCandidates H E uninit names 0 (E.scandir H.SHAKE_DIR_NODES s).2).length
      ∧ (r.reg.listHead.map (fun d => d.id)).reverse
        = List.range r.reg.numOfDevices
      ∧ ∀ k, k < r.reg.numOfDevices →
          usub32 (usub32 r.reg.numOfDevices 1) k
              = r.reg.numOfDevices - 1 - k
          ∧ ∃ dev, listElementGet r.reg.listHead
                (usub32 (usub32 r.reg.numOfDevices 1) k)
                  = some dev
              ∧ dev.id = k
              ∧ dev.node = (acceptedCandidates H E uninit names 0
                  (E.scandir H.SHAKE_DIR_NODES s).2).get? k
              ∧ ∀ t, ∃ res, Shake_Open E r.reg k t = some res
                  ∧ ∀ d, res.ret = some d → d.id = k ∧ d.node = dev.node := by
  obtain ⟨devs, h1, h2, h3, h4, h5⟩ :=
    Shake_Init_spec H E uninit ⟨[], n0⟩ s names r hdir hlen hinit
  simp only [List.append_nil] at h1
  have hacc : (acceptedCandidates H E uninit names 0 (E.scandir H.SHAKE_DIR_NODES s).2).length
      = devs.length := by
    have hl := congrArg List.length h4
    simpa using hl.symm
  refine ⟨by rw [h2, hacc], ?_, ?_⟩
  · rw [h1, h2, List.map_reverse, List.reverse_reverse, h5]
  · intro k hk
    have hcount : r.reg.numOfDevices
        ≤ r.reg.listHead.length := by
      rw [h1, h2, List.length_reverse]
    have hsmall : r.reg.numOfDevices < 2 ^ 31 := by
      rw [h2]
      omega
    obtain ⟨hpos, hlt, dev, hget, hopen⟩ := Shake_Open_valid_id E
      r.reg k (E.scandir H.SHAKE_DIR_NODES s).2 hk hcount hsmall
    rw [h2] at hk
    have hdev : devs.get? k = some dev := by
      rw [hpos, h1, h2] at hget
      unfold listElementGet at hget
      rw [List.get?_eq_getElem?, List.getElem?_reverse (by omega)] at hget
      have hk2 : devs.length - 1 - (devs.length - 1 - k) = k := by omega
      rw [hk2] at hget
      rw [List.get?_eq_getElem?]
      exact hget
    have hidk : dev.id = k := by
      have hm := congrArg (fun l => l.get? k) h5
      simp only [List.get?_eq_getElem?, List.getElem?_map, List.getElem?_range hk] at hm hdev
      rw [hdev] at hm
      simpa using hm
    have hnodek : dev.node = (acceptedCandidates H E uninit names 0
        (E.scandir H.SHAKE_DIR_NODES s).2).get? k := by
      have hm := congrArg (fun l => l.get? k) h4
      simp only [List.get?_eq_getElem?, List.getElem?_map] at hm hdev ⊢
      rw [hdev] at hm
      cases hc : (acceptedCandidates H E uninit names 0 (E.scandir H.SHAKE_DIR_NODES s).2)[k]?
        with
      | none =>
        rw [hc] at hm
        simp at hm
      | some path =>
        rw [hc] at hm
        simpa using hm
    refine ⟨hpos, dev, hget, hidk, hnodek, ?_⟩
    intro t
    obtain ⟨-, -, dev2, hget2, res, hres, hret⟩ := Shake_Open_valid_id E
      r.reg k t (by rw [h2]; exact hk) hcount hsmall
    have hsame : dev2 = dev := by
      rw [hget] at hget2
      exact (Option.some.inj hget2).symm
    subst hsame
    refine ⟨res, hres, ?_⟩
    intro d hd
    obtain ⟨hi, hn⟩ := hret d hd
    exact ⟨by rw [hi, hidk], hn⟩

/-- C7 on the example transport, whose directory lists `event0`, `event1`,
`event2` and whose prober rejects `event1`: `Shake_Init` returns, the count is
2 and `Shake_Open 1` addresses the element with id 1 and path
`/dev/input/event2`. -/
theorem C7_ids_dense_zero_based_discovery_order_witness :
    (exEnv.scandir exHeader.SHAKE_DIR_NODES 0).1 = some ["event0", "event1", "event2"]
      ∧ ["event0", "event1", "event2"].length < 2 ^ 31
      ∧ ∃ r, Shake_Init exHeader exEnv exUninit ⟨[], 0⟩ 0 = some r
          ∧ r.reg.numOfDevices = 2
          ∧ ∃ dev, listElementGet r.reg.listHead (usub32 (usub32 r.reg.numOfDevices 1) 1)
                = some dev
              ∧ dev.id = 1
              ∧ dev.node = some "/dev/input/event2" := by
  have hsome : (Shake_Init exHeader exEnv exUninit ⟨[], 0⟩ 0).isSome = true := by decide
  obtain ⟨r, hr⟩ := Option.isSome_iff_exists.mp hsome
  have h := C7_ids_dense_zero_based_discovery_order exHeader exEnv exUninit 0 0
    ["event0", "event1", "event2"] r rfl (by decide) hr
  have hacc : acceptedCandidates exHeader exEnv exUninit ["event0", "event1", "event2"] 0
      (exEnv.scandir exHeader.SHAKE_DIR_NODES 0).2
        = ["/dev/input/event0", "/dev/input/event2"] := by
    decide
  rw [hacc] at h
  obtain ⟨dev, hget, hid, hnode, -⟩ := (h.2.2 1 (by rw [h.1]; decide)).2
  exact ⟨rfl, by decide, r, hr, h.1, dev, hget, hid, hnode⟩

/-- C8: the id check of `Shake_Open`. In every registry, an id at or above the
count makes `Shake_Open` return `NULL` without any transport call and without
touching the registry. After `Shake_Init` has returned (from any registry,
whether or not the directory could be listed; a listing has fewer than 2^31
entries), for every id below the count neither unsigned subtraction wraps, the
position `Count - 1 - id` lies inside the list, the lookup finds an element
there, and `Shake_Open` returns. -/
theorem C8_open_id_check {σ : Type} (H : Shake_h) (E : Env σ) (uninit : Nat → Shake_Device)
    (reg0 reg : Registry) (s t : σ) (id : Nat) (r : InitRes σ)
    (hlen : ∀ names, (E.scandir H.SHAKE_DIR_NODES s).1 = some names → names.length < 2 ^ 31) :
    (reg.numOfDevices ≤ id → Shake_Open E reg id t = some ⟨none, reg, [], t⟩)
      ∧ (Shake_Init H E uninit reg0 s = some r → id < r.reg.numOfDevices →
          usub32 r.reg.numOfDevices 1 = r.reg.numOfDevices - 1
          ∧ usub32 (usub32 r.reg.numOfDevices 1) id = r.reg.numOfDevices - 1 - id
          ∧ r.reg.numOfDevices - 1 - id < r.reg.listHead.length
          ∧ (∃ dev, listElementGet r.reg.listHead
              (usub32 (usub32 r.reg.numOfDevices 1) id) = some dev)
          ∧ ∃ res, Shake_Open E r.reg id t = some res) := by
  constructor
  · intro hge
    have hge2 : id ≥ reg.numOfDevices := hge
    simp only [Shake_Open, hge2, if_true]
  · intro hinit hid
    obtain ⟨hcount, hsmall⟩ := Shake_Init_count_le_length H E uninit reg0 s r hlen hinit
    obtain ⟨hpos, hlt, dev, hget, res, hres, -⟩ :=
      Shake_Open_valid_id E r.reg id t hid hcount hsmall
    have hone : usub32 r.reg.numOfDevices 1 = r.reg.numOfDevices - 1 :=
      usub32_eq_sub (by omega) (by norm_num at hsmall ⊢; omega)
    exact ⟨hone, hpos, hlt, ⟨dev, hget⟩, res, hres⟩

/-- C8 on the example transport, where `Shake_Init` returns with two devices
registered: id 2 is refused without a transport call, id 1 is looked up at
position 0. -/
theorem C8_open_id_check_witness :
    ∃ r, Shake_Init exHeader exEnv exUninit ⟨[], 0⟩ 0 = some r
      ∧ (r.reg.numOfDevices ≤ 2
        ∧ Shake_Open exEnv r.reg 2 50 = some ⟨none, r.reg, [], 50⟩)
      ∧ (1 < r.reg.numOfDevices
        ∧ usub32 (usub32 r.reg.numOfDevices 1) 1 = r.reg.numOfDevices - 1 - 1
        ∧ ∃ res, Shake_Open exEnv r.reg 1 50 = some res) := by
  have hlen : ∀ names, (exEnv.scandir exHeader.SHAKE_DIR_NODES 0).1 = some names →
      names.length < 2 ^ 31 := by
    intro names hn
    have hn2 : names = ["event0", "event1", "event2"] := (Option.some.inj hn).symm
    rw [hn2]
    decide
  have hsome : (Shake_Init exHeader exEnv exUninit ⟨[], 0⟩ 0).isSome = true := by decide
  obtain ⟨r, hr⟩ := Option.isSome_iff_exists.mp hsome
  have hcount : r.reg.numOfDevices = 2 := by
    have hval : (Shake_Init exHeader exEnv exUninit ⟨[], 0⟩ 0).map
        (fun r => r.reg.numOfDevices) = some 2 := by decide
    rw [hr] at hval
    simpa using hval
  have hhi := (C8_open_id_check exHeader exEnv exUninit ⟨[], 0⟩ r.reg 0 50 2 r hlen).1
    (by rw [hcount])
  have hlo := (C8_open_id_check exHeader exEnv exUninit ⟨[], 0⟩ r.reg 0 50 1 r hlen).2 hr
    (by rw [hcount]; decide)
  exact ⟨r, hr, ⟨by rw [hcount], hhi⟩, ⟨by rw [hcount]; decide, hlo.2.1, hlo.2.2.2.2⟩⟩

/-- `Shake_Open` on a valid id whose device has a path returns `NULL` exactly
when `open` yields 0, whatever else `open` reports. -/
theorem Shake_Open_ret_isNone_iff {σ : Type} (E : Env σ) (reg : Registry) (id : Nat) (t : σ)
    (dev : Shake_Device) (node : String) (hid : id < reg.numOfDevices)
    (hget : listElementGet reg.listHead (usub32 (usub32 reg.numOfDevices 1) id) = some dev)
    (hnode : dev.node = some node) :
    ∃ res, Shake_Open E reg id t = some res
      ∧ res.trace = [Call.sys_open node]
      ∧ (res.ret = none ↔ (E.sys_open node t).1 = 0)
      ∧ (res.ret ≠ none → res.ret = some { dev with fd := (E.sys_open node t).1 }) := by
  have hnot : ¬ id ≥ reg.numOfDevices := by omega
  simp only [Shake_Open, hnot, if_false, hget, hnode]
  refine ⟨_, rfl, rfl, ?_, ?_⟩
  · by_cases h0 : (E.sys_open node t).1 = 0 <;> simp [h0]
  · by_cases h0 : (E.sys_open node t).1 = 0 <;> simp [h0]

/-- C9 fails on the code. After `Shake_Init` has returned with two devices
registered, a call of `Shake_Open 0` during which `open` fails with -1 returns
the device (with `fd` -1), not `NULL`; and a call during which `open` succeeds
with handle 0 returns `NULL`. -/
theorem C9_open_failure_returns_device :
    (Shake_Init exHeader exEnvUnplugged exUninit ⟨[], 0⟩ 0).map
          (fun r => r.reg.numOfDevices) = some 2
      ∧ (exEnvUnplugged.sys_open "/dev/input/event0" 100).1 = -1
      ∧ ((Shake_Init exHeader exEnvUnplugged exUninit ⟨[], 0⟩ 0).bind
            (fun r => Shake_Open exEnvUnplugged r.reg 0 100)).map
          (fun res => (res.ret, res.trace))
          = some (some { id := 0, node := some "/dev/input/event0", fd := -1,
                         features := [0, 0x100010000], capacity := 16, name := "pad" },
                  [Call.sys_open "/dev/input/event0"])
      ∧ (exEnvHandleZero.sys_open "/dev/input/event0" 100).1 = 0
      ∧ ((Shake_Init exHeader exEnvHandleZero exUninit ⟨[], 0⟩ 0).bind
            (fun r => Shake_Open exEnvHandleZero r.reg 0 100)).map
          (fun res => (res.ret, res.trace))
          = some (none, [Call.sys_open "/dev/input/event0"]) := by
  refine ⟨by decide, by decide, by decide, by decide, by decide⟩

/-- When `Shake_Probe` returns `SHAKE_OK` and `malloc(sizeof(Shake_Device))`
returns `NULL`, the loop of `Shake_Init` does not return: it writes the device
record through the `NULL` pointer. -/
theorem Shake_Init_loop_item_allocation_fails {σ : Type} (H : Shake_h) (E : Env σ)
    (uninit : Nat → Shake_Device) (d_name : String) (rest : List String) (i : Nat)
    (reg : Registry) (s : σ)
    (hm : (E.malloc (H.SHAKE_DIR_NODES.utf8ByteSize + 1 + d_name.utf8ByteSize + 1) s).1 = true)
    (hp : (Shake_Probe E (some (Shake_Init_dev H uninit i d_name))
          (E.malloc (H.SHAKE_DIR_NODES.utf8ByteSize + 1 + d_name.utf8ByteSize + 1) s).2).status
            = SHAKE_OK)
    (hitem : (E.malloc E.sizeofDevice (Shake_Probe E (some (Shake_Init_dev H uninit i d_name))
          (E.malloc (H.SHAKE_DIR_NODES.utf8ByteSize + 1 + d_name.utf8ByteSize + 1) s).2).s).1
            = false) :
    Shake_Init_loop H E uninit (d_name :: rest) i reg s = none := by
  simp only [Shake_Init_loop, hm, hp, hitem, if_true, if_false, Bool.true_eq_false]

theorem toS32_of_fits {x : Int} (h0 : 0 ≤ x) (h1 : x < 2147483648) : toS32 x = x := by
  unfold toS32 toSigned
  norm_num
  omega

/-- When every allocation it requests succeeds, the loop of `Shake_Init`
returns, and the status is `SHAKE_OK`, whatever the prober answers. -/
theorem Shake_Init_loop_returns {σ : Type} (H : Shake_h) (E : Env σ)
    (uninit : Nat → Shake_Device) :
    ∀ (names : List String) (i : Nat) (reg : Registry) (s : σ),
      allocationsSucceed H E uninit names i s = true →
      ∃ r, Shake_Init_loop H E uninit names i reg s = some r ∧ r.status = SHAKE_OK := by
  intro names
  induction names with
  | nil =>
    intro i reg s _
    exact ⟨_, rfl, rfl⟩
  | cons d_name rest ih =>
    intro i reg s halloc
    simp only [allocationsSucceed, Bool.and_eq_true] at halloc
    obtain ⟨hm, hrest⟩ := halloc
    by_cases hp : (Shake_Probe E (some (Shake_Init_dev H uninit i d_name))
        (E.malloc (H.SHAKE_DIR_NODES.utf8ByteSize + 1 + d_name.utf8ByteSize + 1) s).2).status
          = SHAKE_OK
    · simp only [hp, if_true, Bool.and_eq_true] at hrest
      obtain ⟨hitem, hrest⟩ := hrest
      obtain ⟨r1, hr1, hs1⟩ := ih (i + 1)
        { listHead := listElementPrepend reg.listHead
            { (Shake_Probe E (some (Shake_Init_dev H uninit i d_name))
                (E.malloc (H.SHAKE_DIR_NODES.utf8ByteSize + 1 + d_name.utf8ByteSize + 1)
                  s).2).dev.getD (Shake_Init_dev H uninit i d_name) with
              id := reg.numOfDevices },
          numOfDevices := (reg.numOfDevices + 1) % 2 ^ 32 } _ hrest
      simp only [Shake_Init_loop, hm, hp, hitem, if_true, if_false, Bool.true_eq_false]
      rw [hr1]
      exact ⟨_, rfl, hs1⟩
    · simp only [hp, if_false] at hrest
      obtain ⟨r1, hr1, hs1⟩ := ih (i + 1) reg _ hrest
      simp only [Shake_Init_loop, hm, hp, if_false, Bool.true_eq_false]
      rw [hr1]
      exact ⟨_, rfl, hs1⟩

/-- When no answer of the transport satisfies the acceptance rule, no
candidate is accepted. -/
theorem acceptedCandidates_eq_nil {σ : Type} (H : Shake_h) (E : Env σ)
    (uninit : Nat → Shake_Device)
    (hno : ∀ fd features capacity t, ¬ answersAccept E fd features capacity t) :
    ∀ (names : List String) (i : Nat) (s : σ),
      acceptedCandidates H E uninit names i s = [] := by
  intro names
  induction names with
  | nil =>
    intro i s
    rfl
  | cons d_name rest ih =>
    intro i s
    obtain ⟨hp, -, -⟩ := Shake_Probe_spec E
      (Shake_Init_dev H uninit i d_name) (H.SHAKE_DIR_NODES ++ "/" ++ d_name)
      (E.malloc (H.SHAKE_DIR_NODES.utf8ByteSize + 1 + d_name.utf8ByteSize + 1) s).2 rfl
    have hrej : ¬ (Shake_Probe E (some (Shake_Init_dev H uninit i d_name))
        (E.malloc (H.SHAKE_DIR_NODES.utf8ByteSize + 1 + d_name.utf8ByteSize + 1) s).2).status
          = SHAKE_OK := by
      rw [hp]
      exact fun h => hno _ _ _ _ h.2
    simp only [acceptedCandidates, hrej, if_false, ih]
    split_ifs <;> rfl

/-- C11, as stated, fails when a path buffer cannot be allocated: on a
transport whose directory is listed successfully (three entries) and whose
`malloc` fails for the path buffer of the second entry, `Shake_Init` returns
`SHAKE_ERROR` (with the first candidate registered), not `SHAKE_OK`. -/
theorem C11_counterexample_allocation_failure :
    (exEnvNoMemory.scandir exHeader.SHAKE_DIR_NODES 0).1
        = some ["event0", "event1", "event2"]
      ∧ (Shake_Init exHeader exEnvNoMemory exUninit ⟨[], 0⟩ 0).map (fun r => r.status)
          = some SHAKE_ERROR
      ∧ (Shake_Init exHeader exEnvNoMemory exUninit ⟨[], 0⟩ 0).map (fun r => r.status)
          ≠ some SHAKE_OK
      ∧ (Shake_Init exHeader exEnvNoMemory exUninit ⟨[], 0⟩ 0).map
          (fun r => Shake_NumOfDevices r.reg) = some 1 := by
  refine ⟨by decide, by decide, by decide, by decide⟩

/-- On a transport whose directory is listed and whose `malloc` delivers every
path buffer but not the storage of a `Shake_Device`, `Shake_Init` does not
return: the first accepted candidate is copied through a `NULL` pointer. -/
theorem Shake_Init_device_allocation_failure :
    (exEnvNoDeviceMemory.scandir exHeader.SHAKE_DIR_NODES 0).1
        = some ["event0", "event1", "event2"]
      ∧ Shake_Init exHeader exEnvNoDeviceMemory exUninit ⟨[], 0⟩ 0 = none := by
  refine ⟨by decide, rfl⟩

/-- C11 (amended): probe rejection is not an enumeration failure. For every
registry on entry, every transport behaviour and every successfully listed
directory (fewer than 2^31 entries), if every allocation `Shake_Init` requests
succeeds (the path buffer of each candidate and the storage of the device
record of each accepted candidate), then `Shake_Init` returns, its status is
`SHAKE_OK` and `Shake_NumOfDevices` equals the number of candidates the prober
accepted; in particular the count is 0 when the listing is empty and when no
answer of the transport satisfies the acceptance rule. -/
theorem C11_probe_rejection_is_not_failure {σ : Type} (H : Shake_h) (E : Env σ)
    (uninit : Nat → Shake_Device) (reg : Registry) (s : σ) (names : List String)
    (hdir : (E.scandir H.SHAKE_DIR_NODES s).1 = some names) (hlen : names.length < 2 ^ 31)
    (halloc : allocationsSucceed H E uninit names 0 (E.scandir H.SHAKE_DIR_NODES s).2 = true) :
    ∃ r, Shake_Init H E uninit reg s = some r
      ∧ r.status = SHAKE_OK
      ∧ Shake_NumOfDevices r.reg
          = (acceptedCandidates H E uninit names 0 (E.scandir H.SHAKE_DIR_NODES s).2).length
      ∧ (names = [] → Shake_NumOfDevices r.reg = 0)
      ∧ ((∀ fd features capacity t, ¬ answersAccept E fd features capacity t) →
          Shake_NumOfDevices r.reg = 0) := by
  obtain ⟨r, hr, hstatus⟩ := Shake_Init_loop_returns H E uninit names 0
    { reg with numOfDevices := 0 } (E.scandir H.SHAKE_DIR_NODES s).2 halloc
  have hinit : Shake_Init H E uninit reg s = some r := by
    simp only [Shake_Init, hdir]
    exact hr
  obtain ⟨devs, -, h2, h3, h4, -⟩ := Shake_Init_spec H E uninit reg s names r hdir hlen hinit
  have hacc : (acceptedCandidates H E uninit names 0 (E.scandir H.SHAKE_DIR_NODES s).2).length
      = devs.length := by
    have hl := congrArg List.length h4
    simpa using hl.symm
  have hcount : Shake_NumOfDevices r.reg
      = (acceptedCandidates H E uninit names 0 (E.scandir H.SHAKE_DIR_NODES s).2).length := by
    unfold Shake_NumOfDevices
    rw [h2, hacc]
    apply toS32_of_fits
    · exact Int.natCast_nonneg _
    · norm_num at hlen
      omega
  refine ⟨r, hinit, hstatus, hcount, ?_, ?_⟩
  · intro hnil
    rw [hcount, hnil]
    rfl
  · intro hno
    rw [hcount, acceptedCandidates_eq_nil H E uninit hno]
    rfl

/-- C11 (amended) on the example transport, whose allocations all succeed and
of whose three candidates two pass the probe: `Shake_Init` returns, the status
is `SHAKE_OK` and the count is 2. -/
theorem C11_probe_rejection_is_not_failure_witness :
    (exEnv.scandir exHeader.SHAKE_DIR_NODES 0).1 = some ["event0", "event1", "event2"]
      ∧ ["event0", "event1", "event2"].length < 2 ^ 31
      ∧ allocationsSucceed exHeader exEnv exUninit ["event0", "event1", "event2"] 0
          (exEnv.scandir exHeader.SHAKE_DIR_NODES 0).2 = true
      ∧ ∃ r, Shake_Init exHeader exEnv exUninit ⟨[], 0⟩ 0 = some r
          ∧ r.status = SHAKE_OK
          ∧ Shake_NumOfDevices r.reg = 2 := by
  obtain ⟨r, hr, hstatus, hcount, -, -⟩ :=
    C11_probe_rejection_is_not_failure exHeader exEnv exUninit ⟨[], 0⟩ 0
      ["event0", "event1", "event2"] rfl (by decide) (by decide)
  have hacc : (acceptedCandidates exHeader exEnv exUninit ["event0", "event1", "event2"] 0
      (exEnv.scandir exHeader.SHAKE_DIR_NODES 0).2).length = 2 := by
    decide
  exact ⟨rfl, by decide, by decide, r, hr, hstatus, by rw [hcount, hacc]; rfl⟩

/-! ## Theorems: teardown -/

/-- The loop of `Shake_Quit` issues one `close` per element of the chain, on
the value its `fd` field holds, without looking at that value. -/
theorem Shake_Quit_loop_trace {σ : Type} (E : Env σ) :
    ∀ (chain : List Shake_Device) (s : σ),
      (Shake_Quit_loop E chain s).trace = chain.map (fun d => Call.sys_close d.fd) := by
  intro chain
  induction chain with
  | nil =>
    intro s
    rfl
  | cons dev next ih =>
    intro s
    simp only [Shake_Quit_loop, Shake_Close, List.map_cons, ih, List.singleton_append]

/-- `Shake_Quit` on an empty registry (`listHead == NULL`) does nothing. -/
theorem Shake_Quit_empty {σ : Type} (E : Env σ) (n : Nat) (storage : Storage) (s : σ) :
    Shake_Quit E ⟨[], n⟩ storage s = some ⟨⟨[], n⟩, storage, [], [], 0, s⟩ := rfl

/-- `Shake_Quit` on a non-empty registry releases the chain but leaves
`listHead` and `numOfDevices` as they were, so that a second `Shake_Quit` takes
the branch `listHead != NULL` again and walks the released chain. -/
theorem Shake_Quit_twice_nonempty {σ : Type} (E : Env σ) (reg : Registry) (s : σ)
    (hne : reg.listHead ≠ []) :
    ∃ q, Shake_Quit E reg Storage.allocated s = some q
      ∧ q.reg = reg
      ∧ q.storage = Storage.released
      ∧ q.trace = reg.listHead.map (fun d => Call.sys_close d.fd)
      ∧ q.deleted = reg.listHead.length
      ∧ Shake_Quit E q.reg q.storage q.s = none := by
  obtain ⟨listHead, numOfDevices⟩ := reg
  cases listHead with
  | nil => exact absurd rfl hne
  | cons dev next =>
    exact ⟨_, rfl, rfl, rfl, Shake_Quit_loop_trace E (dev :: next) s, rfl, rfl⟩

/-- C12 fails on the code for a non-empty registry. After `Shake_Init` has
registered two devices, the first `Shake_Quit` closes both, frees both path
strings and hands the two elements to `listElementDeleteAll`, but leaves
`listHead` pointing to the released chain (it is not the empty list) and
`numOfDevices` at 2; the second `Shake_Quit` therefore is not a no-op: it
enters the loop and reads the released storage. -/
theorem C12_second_quit_walks_released_list :
    ∃ r, Shake_Init exHeader exEnv exUninit ⟨[], 0⟩ 0 = some r
      ∧ ∃ q, Shake_Quit exEnv r.reg Storage.allocated r.s = some q
          ∧ q.freed = ["/dev/input/event2", "/dev/input/event0"]
          ∧ q.deleted = 2
          ∧ q.storage = Storage.released
          ∧ q.reg = r.reg
          ∧ q.reg.listHead ≠ []
          ∧ q.reg.numOfDevices = 2
          ∧ Shake_Quit exEnv q.reg q.storage q.s = none := by
  refine ⟨_, rfl, _, rfl, ?_, ?_, rfl, rfl, ?_, ?_, rfl⟩ <;> decide

/-- C13 fails on the code. After `Shake_Init` has registered two devices, none
of which was ever opened, each device holds handle value 0 (the return value of
the prober's `close`), and `Shake_Quit` issues `close(0)` for each of them. -/
theorem C13_quit_closes_handle_zero :
    (Shake_Init exHeader exEnv exUninit ⟨[], 0⟩ 0).map
        (fun r => r.reg.listHead.map (fun d => (d.id, d.fd))) = some [(1, 0), (0, 0)]
      ∧ ((Shake_Init exHeader exEnv exUninit ⟨[], 0⟩ 0).bind
            (fun r => Shake_Quit exEnv r.reg Storage.allocated r.s)).map (fun q => q.trace)
          = some [Call.sys_close 0, Call.sys_close 0] := by
  refine ⟨by decide, by decide⟩

/-! ## Theorems: effect codec, all types -/

/-- For each of the four supported types the `if`/`else if` chain builds a
record; its `type`, `id` and replay fields are assigned from the effect,
whatever the local held before. -/
theorem Shake_UploadEffect_fill_assigned (H : Shake_h) (e : ff_effect) (effect : Shake_Effect)
    (hT : effect.type ∈ supportedTypes H) :
    ∃ native, Shake_UploadEffect_fill H e effect = some native
      ∧ native.id = toS16 effect.id
      ∧ native.replay.delay = toU16 effect.delay
      ∧ native.replay.length = toU16 effect.length
      ∧ (native.type = toU16 FF_RUMBLE ∨ native.type = toU16 FF_PERIODIC
          ∨ native.type = toU16 FF_CONSTANT ∨ native.type = toU16 FF_RAMP) := by
  simp only [supportedTypes, List.mem_cons, List.mem_singleton, List.not_mem_nil, or_false]
    at hT
  unfold Shake_UploadEffect_fill
  split_ifs with h1 h2 h3 h4
  · exact ⟨_, rfl, rfl, rfl, rfl, Or.inl rfl⟩
  · exact ⟨_, rfl, rfl, rfl, rfl, Or.inr (Or.inl rfl)⟩
  · exact ⟨_, rfl, rfl, rfl, rfl, Or.inr (Or.inr (Or.inl rfl))⟩
  · exact ⟨_, rfl, rfl, rfl, rfl, Or.inr (Or.inr (Or.inr rfl))⟩
  · rcases hT with h | h | h | h
    · exact absurd h h1
    · exact absurd h h2
    · exact absurd h h3
    · exact absurd h h4

/-- The value `Shake_UploadEffect` returns for an accepted effect: the error
sentinel when the set-effect request answers -1, otherwise the `id` the
transport left in the record. -/
theorem Shake_UploadEffect_ret_of_fill {σ : Type} (H : Shake_h) (E : Env σ) (e : ff_effect)
    (d : Shake_Device) (effect : Shake_Effect) (s : σ) (hid : -1 ≤ effect.id)
    (native : ff_effect) (hfill : Shake_UploadEffect_fill H e effect = some native) :
    (Shake_UploadEffect H E e (some d) (some effect) s).ret
      = if (E.ioctl_EVIOCSFF d.fd native s).1.1 = -1 then SHAKE_ERROR
        else (E.ioctl_EVIOCSFF d.fd native s).1.2.id := by
  have hnot : ¬ effect.id < -1 := by omega
  simp only [Shake_UploadEffect, hnot, if_false, hfill]
  split_ifs <;> rfl

/-- C14: the result of `Shake_UploadEffect` distinguishes error from a valid
id. For every effect of a supported type whose id is from -1 on (and a value of
the 16-bit id field), exactly one set-effect request is issued and the record
submitted carries the effect's id; if the request answers -1 the result is
`SHAKE_ERROR`, which is negative; otherwise the result is the id the transport
left in the record. Hence, when the transport leaves a non-negative id on
success, the result is negative if and only if the request failed, and an id
of 0 left by the transport is returned as 0. -/
theorem C14_upload_result_error_or_slot {σ : Type} (H : Shake_h) (E : Env σ) (e : ff_effect)
    (d : Shake_Device) (effect : Shake_Effect) (s : σ)
    (hT : effect.type ∈ supportedTypes H) (hid : -1 ≤ effect.id)
    (hidfit : effect.id < 32768) :
    ∃ native, (Shake_UploadEffect H E e (some d) (some effect) s).trace
          = [Call.ioctl_EVIOCSFF d.fd native]
      ∧ native.id = effect.id
      ∧ ((E.ioctl_EVIOCSFF d.fd native s).1.1 = -1 →
          (Shake_UploadEffect H E e (some d) (some effect) s).ret = SHAKE_ERROR
            ∧ SHAKE_ERROR < 0)
      ∧ ((E.ioctl_EVIOCSFF d.fd native s).1.1 ≠ -1 →
          (Shake_UploadEffect H E e (some d) (some effect) s).ret
            = (E.ioctl_EVIOCSFF d.fd native s).1.2.id)
      ∧ (((E.ioctl_EVIOCSFF d.fd native s).1.1 ≠ -1 →
            0 ≤ (E.ioctl_EVIOCSFF d.fd native s).1.2.id) →
          ((Shake_UploadEffect H E e (some d) (some effect) s).ret < 0 ↔
            (E.ioctl_EVIOCSFF d.fd native s).1.1 = -1))
      ∧ ((E.ioctl_EVIOCSFF d.fd native s).1.1 ≠ -1 →
          (E.ioctl_EVIOCSFF d.fd native s).1.2.id = 0 →
          (Shake_UploadEffect H E e (some d) (some effect) s).ret = 0) := by
  obtain ⟨native, hfill, hnid, -, -, -⟩ := Shake_UploadEffect_fill_assigned H e effect hT
  have hret := Shake_UploadEffect_ret_of_fill H E e d effect s hid native hfill
  have hneg : SHAKE_ERROR < 0 := by decide
  refine ⟨native, Shake_UploadEffect_trace_of_fill H E e d effect s hid native hfill, ?_,
    ?_, ?_, ?_, ?_⟩
  · rw [hnid]
    exact toS16_of_fits (by omega) hidfit
  · intro hfail
    rw [hret, if_pos hfail]
    exact ⟨rfl, hneg⟩
  · intro hok
    rw [hret, if_neg hok]
  · intro hslot
    rw [hret]
    by_cases hfail : (E.ioctl_EVIOCSFF d.fd native s).1.1 = -1
    · rw [if_pos hfail]
      exact ⟨fun _ => hfail, fun _ => hneg⟩
    · rw [if_neg hfail]
      have := hslot hfail
      constructor
      · intro hlt
        omega
      · intro h
        exact absurd h hfail
  · intro hok hzero
    rw [hret, if_neg hok, hzero]

/-- C14 on the example transport, which assigns slot 0 to an effect uploaded
with id -1: the Rumble effect is submitted with id -1 and the result is 0. -/
theorem C14_upload_result_error_or_slot_witness :
    exRumble.type ∈ supportedTypes exHeader ∧ -1 ≤ exRumble.id ∧ exRumble.id < 32768
      ∧ ∃ native, (Shake_UploadEffect exHeader exEnv exRecord (some exDevice)
            (some exRumble) 0).trace = [Call.ioctl_EVIOCSFF exDevice.fd native]
          ∧ native.id = -1
          ∧ (Shake_UploadEffect exHeader exEnv exRecord (some exDevice) (some exRumble) 0).ret
              = 0 := by
  obtain ⟨native, htrace, hid, -, hok, -, hzero⟩ :=
    C14_upload_result_error_or_slot exHeader exEnv exRecord exDevice exRumble 0
      (by decide) (by decide) (by decide)
  have hid2 : native.id = -1 := hid
  refine ⟨by decide, by decide, by decide, native, htrace, hid2, ?_⟩
  apply hzero
  · simp [exEnv]
  · simp [exEnv, hid2]

/-- The record the Constant branch builds from the uninitialised local `e`. -/
theorem Shake_UploadEffect_fill_constant (H : Shake_h) (e : ff_effect) (effect : Shake_Effect)
    (hr : H.SHAKE_EFFECT_CONSTANT ≠ H.SHAKE_EFFECT_RUMBLE)
    (hp : H.SHAKE_EFFECT_CONSTANT ≠ H.SHAKE_EFFECT_PERIODIC)
    (htype : effect.type = H.SHAKE_EFFECT_CONSTANT) :
    Shake_UploadEffect_fill H e effect = some
      { type := toU16 FF_CONSTANT, id := toS16 effect.id, direction := e.direction,
        trigger := { button := toU16 0, interval := toU16 0 },
        replay := { length := toU16 effect.length, delay := toU16 effect.delay },
        u := { e.u with constant :=
                { level := toS16 effect.u.constant.level,
                  envelope :=
                    { attack_length := toU16 effect.u.constant.envelope.attackLength,
                      attack_level := toU16 effect.u.constant.envelope.attackLevel,
                      fade_length := toU16 effect.u.constant.envelope.fadeLength,
                      fade_level := toU16 effect.u.constant.envelope.fadeLevel } } } } := by
  simp only [Shake_UploadEffect_fill, htype, hr, hp, if_true, if_false]

/-- The record the Ramp branch builds from the uninitialised local `e`. -/
theorem Shake_UploadEffect_fill_ramp (H : Shake_h) (e : ff_effect) (effect : Shake_Effect)
    (hr : H.SHAKE_EFFECT_RAMP ≠ H.SHAKE_EFFECT_RUMBLE)
    (hp : H.SHAKE_EFFECT_RAMP ≠ H.SHAKE_EFFECT_PERIODIC)
    (hc : H.SHAKE_EFFECT_RAMP ≠ H.SHAKE_EFFECT_CONSTANT)
    (htype : effect.type = H.SHAKE_EFFECT_RAMP) :
    Shake_UploadEffect_fill H e effect = some
      { type := toU16 FF_RAMP, id := toS16 effect.id, direction := e.direction,
        trigger := { button := toU16 0, interval := toU16 0 },
        replay := { length := toU16 effect.length, delay := toU16 effect.delay },
        u := { e.u with ramp :=
                { start_level := toS16 effect.u.ramp.startLevel,
                  end_level := toS16 effect.u.ramp.endLevel,
                  envelope :=
                    { attack_length := toU16 effect.u.ramp.envelope.attackLength,
                      attack_level := toU16 effect.u.ramp.envelope.attackLevel,
                      fade_length := toU16 effect.u.ramp.envelope.fadeLength,
                      fade_level := toU16 effect.u.ramp.envelope.fadeLevel } } } } := by
  simp only [Shake_UploadEffect_fill, htype, hr, hp, hc, if_true, if_false]

/-- Converting the four envelope values to the 16-bit envelope fields keeps
them when they fit. -/
theorem envelopeCopied_of_fits (env : Shake_Envelope) (h : envelopeFits env) :
    envelopeCopied
      { attack_length := toU16 env.attackLength, attack_level := toU16 env.attackLevel,
        fade_length := toU16 env.fadeLength, fade_level := toU16 env.fadeLevel } env :=
  ⟨toU16_of_fits h.1.1 h.1.2, toU16_of_fits h.2.1.1 h.2.1.2,
    toU16_of_fits h.2.2.1.1 h.2.2.1.2, toU16_of_fits h.2.2.2.1 h.2.2.2.2⟩

/-- C15: codec payload for Periodic, Constant and Ramp. The four enumerators
being pairwise distinct, for every effect with id from -1 on whose delay,
length and type-specific values are values of their 16-bit fields, exactly one
set-effect request is issued and its native record has: for a Periodic effect
type `FF_PERIODIC`, period, magnitude, offset, phase and direction equal to the
effect's; for a Constant effect type `FF_CONSTANT` and the effect's level; for
a Ramp effect type `FF_RAMP` and the effect's start and end level; and in all
three cases the effect's four envelope fields, replay delay and length equal to
the effect's delay and length, trigger button 0 and trigger interval 0. -/
theorem C15_codec_payload {σ : Type} (H : Shake_h) (E : Env σ) (e : ff_effect)
    (d : Shake_Device) (effect : Shake_Effect) (s : σ)
    (hdistinct : (supportedTypes H).Nodup) (hid : -1 ≤ effect.id)
    (hdelay : fitsU16 effect.delay) (hlength : fitsU16 effect.length) :
    (effect.type = H.SHAKE_EFFECT_PERIODIC →
        fitsU16 effect.u.periodic.period → fitsS16 effect.u.periodic.magnitude →
        fitsS16 effect.u.periodic.offset → fitsU16 effect.u.periodic.phase →
        envelopeFits effect.u.periodic.envelope → fitsU16 effect.direction →
        ∃ native, (Shake_UploadEffect H E e (some d) (some effect) s).trace
              = [Call.ioctl_EVIOCSFF d.fd native]
          ∧ native.type = FF_PERIODIC
          ∧ native.u.periodic.period = effect.u.periodic.period
          ∧ native.u.periodic.magnitude = effect.u.periodic.magnitude
          ∧ native.u.periodic.offset = effect.u.periodic.offset
          ∧ native.u.periodic.phase = effect.u.periodic.phase
          ∧ envelopeCopied native.u.periodic.envelope effect.u.periodic.envelope
          ∧ native.direction = effect.direction
          ∧ native.replay.delay = effect.delay ∧ native.replay.length = effect.length
          ∧ native.trigger.button = 0 ∧ native.trigger.interval = 0)
      ∧ (effect.type = H.SHAKE_EFFECT_CONSTANT →
        fitsS16 effect.u.constant.level → envelopeFits effect.u.constant.envelope →
        ∃ native, (Shake_UploadEffect H E e (some d) (some effect) s).trace
              = [Call.ioctl_EVIOCSFF d.fd native]
          ∧ native.type = FF_CONSTANT
          ∧ native.u.constant.level = effect.u.constant.level
          ∧ envelopeCopied native.u.constant.envelope effect.u.constant.envelope
          ∧ native.replay.delay = effect.delay ∧ native.replay.length = effect.length
          ∧ native.trigger.button = 0 ∧ native.trigger.interval = 0)
      ∧ (effect.type = H.SHAKE_EFFECT_RAMP →
        fitsS16 effect.u.ramp.startLevel → fitsS16 effect.u.ramp.endLevel →
        envelopeFits effect.u.ramp.envelope →
        ∃ native, (Shake_UploadEffect H E e (some d) (some effect) s).trace
              = [Call.ioctl_EVIOCSFF d.fd native]
          ∧ native.type = FF_RAMP
          ∧ native.u.ramp.start_level = effect.u.ramp.startLevel
          ∧ native.u.ramp.end_level = effect.u.ramp.endLevel
          ∧ envelopeCopied native.u.ramp.envelope effect.u.ramp.envelope
          ∧ native.replay.delay = effect.delay ∧ native.replay.length = effect.length
          ∧ native.trigger.button = 0 ∧ native.trigger.interval = 0) := by
  simp only [supportedTypes, List.nodup_cons, List.mem_cons, List.mem_singleton,
    List.not_mem_nil, or_false, not_or, List.nodup_nil, and_true, not_false_eq_true] at hdistinct
  obtain ⟨⟨hrp, hrc, hrr⟩, ⟨hpc, hpr⟩, hcr⟩ := hdistinct
  have hd := toU16_of_fits hdelay.1 hdelay.2
  have hl := toU16_of_fits hlength.1 hlength.2
  have hzero : toU16 0 = 0 := by decide
  refine ⟨?_, ?_, ?_⟩
  · intro htype hper hmag hoff hph henv hdir
    refine ⟨_, Shake_UploadEffect_trace_of_fill H E e d effect s hid _
      (Shake_UploadEffect_fill_periodic H e effect (Ne.symm hrp) htype),
      toU16_of_fits (by decide) (by decide), toU16_of_fits hper.1 hper.2,
      toS16_of_fits hmag.1 hmag.2, toS16_of_fits hoff.1 hoff.2, toU16_of_fits hph.1 hph.2,
      envelopeCopied_of_fits _ henv, toU16_of_fits hdir.1 hdir.2, hd, hl, hzero, hzero⟩
  · intro htype hlev henv
    refine ⟨_, Shake_UploadEffect_trace_of_fill H E e d effect s hid _
      (Shake_UploadEffect_fill_constant H e effect (Ne.symm hrc) (Ne.symm hpc) htype),
      toU16_of_fits (by decide) (by decide), toS16_of_fits hlev.1 hlev.2,
      envelopeCopied_of_fits _ henv, hd, hl, hzero, hzero⟩
  · intro htype hstart hend henv
    refine ⟨_, Shake_UploadEffect_trace_of_fill H E e d effect s hid _
      (Shake_UploadEffect_fill_ramp H e effect (Ne.symm hrr) (Ne.symm hpr) (Ne.symm hcr) htype),
      toU16_of_fits (by decide) (by decide), toS16_of_fits hstart.1 hstart.2,
      toS16_of_fits hend.1 hend.2, envelopeCopied_of_fits _ henv, hd, hl, hzero, hzero⟩

/-- C15 on the example transport, for one Periodic, one Constant and one Ramp
effect. -/
theorem C15_codec_payload_witness :
    (∃ native, (Shake_UploadEffect exHeader exEnv exRecord (some exDevice)
          (some exPeriodic) 0).trace = [Call.ioctl_EVIOCSFF exDevice.fd native]
        ∧ native.type = FF_PERIODIC
        ∧ native.u.periodic.period = 100
        ∧ native.u.periodic.magnitude = 0x3000
        ∧ native.u.periodic.offset = 0
        ∧ native.u.periodic.phase = 0
        ∧ envelopeCopied native.u.periodic.envelope ⟨10, 20, 30, 40⟩
        ∧ native.direction = 0x4000
        ∧ native.replay.delay = 0 ∧ native.replay.length = 500
        ∧ native.trigger.button = 0 ∧ native.trigger.interval = 0)
      ∧ (∃ native, (Shake_UploadEffect exHeader exEnv exRecord (some exDevice)
          (some exConstant) 0).trace = [Call.ioctl_EVIOCSFF exDevice.fd native]
        ∧ native.type = FF_CONSTANT
        ∧ native.u.constant.level = -0x2000
        ∧ envelopeCopied native.u.constant.envelope ⟨1, 2, 3, 4⟩
        ∧ native.replay.delay = 5 ∧ native.replay.length = 250
        ∧ native.trigger.button = 0 ∧ native.trigger.interval = 0)
      ∧ (∃ native, (Shake_UploadEffect exHeader exEnv exRecord (some exDevice)
          (some exRamp) 0).trace = [Call.ioctl_EVIOCSFF exDevice.fd native]
        ∧ native.type = FF_RAMP
        ∧ native.u.ramp.start_level = -0x4000
        ∧ native.u.ramp.end_level = 0x4000
        ∧ envelopeCopied native.u.ramp.envelope ⟨5, 6, 7, 8⟩
        ∧ native.replay.delay = 0 ∧ native.replay.length = 750
        ∧ native.trigger.button = 0 ∧ native.trigger.interval = 0) :=
  ⟨(C15_codec_payload exHeader exEnv exRecord exDevice exPeriodic 0
      (by decide) (by decide) (by decide) (by decide)).1
      (by decide) (by decide) (by decide) (by decide) (by decide) (by decide) (by decide),
    (C15_codec_payload exHeader exEnv exRecord exDevice exConstant 0
      (by decide) (by decide) (by decide) (by decide)).2.1
      (by decide) (by decide) (by decide),
    (C15_codec_payload exHeader exEnv exRecord exDevice exRamp 0
      (by decide) (by decide) (by decide) (by decide)).2.2
      (by decide) (by decide) (by decide) (by decide)⟩

/-! ## Theorems: uninitialised fields of the native record -/

/-- In the Periodic branch every common field of the record is assigned: the
record built does not depend on what the local held before, except for the two
fields of the periodic view that no branch assigns. -/
theorem Shake_UploadEffect_fill_periodic_common (H : Shake_h) (e1 e2 : ff_effect)
    (effect : Shake_Effect) (hne : H.SHAKE_EFFECT_PERIODIC ≠ H.SHAKE_EFFECT_RUMBLE)
    (htype : effect.type = H.SHAKE_EFFECT_PERIODIC) :
    ∃ n1 n2, Shake_UploadEffect_fill H e1 effect = some n1
      ∧ Shake_UploadEffect_fill H e2 effect = some n2
      ∧ n1.type = n2.type ∧ n1.id = n2.id ∧ n1.direction = n2.direction
      ∧ n1.trigger = n2.trigger ∧ n1.replay = n2.replay := by
  exact ⟨_, _, Shake_UploadEffect_fill_periodic H e1 effect hne htype,
    Shake_UploadEffect_fill_periodic H e2 effect hne htype, rfl, rfl, rfl, rfl, rfl⟩

/-- The Rumble branch leaves `direction` and both trigger fields of the local
as they were; the Constant and Ramp branches leave `direction` as it was. -/
theorem Shake_UploadEffect_fill_unassigned (H : Shake_h) (e : ff_effect)
    (effect : Shake_Effect) (hdistinct : (supportedTypes H).Nodup) :
    (effect.type = H.SHAKE_EFFECT_RUMBLE →
        ∃ native, Shake_UploadEffect_fill H e effect = some native
          ∧ native.direction = e.direction ∧ native.trigger = e.trigger)
      ∧ (effect.type = H.SHAKE_EFFECT_CONSTANT →
        ∃ native, Shake_UploadEffect_fill H e effect = some native
          ∧ native.direction = e.direction)
      ∧ (effect.type = H.SHAKE_EFFECT_RAMP →
        ∃ native, Shake_UploadEffect_fill H e effect = some native
          ∧ native.direction = e.direction) := by
  simp only [supportedTypes, List.nodup_cons, List.mem_cons, List.mem_singleton,
    List.not_mem_nil, or_false, not_or, List.nodup_nil, and_true, not_false_eq_true] at hdistinct
  obtain ⟨⟨-, hrc, hrr⟩, ⟨hpc, hpr⟩, hcr⟩ := hdistinct
  refine ⟨?_, ?_, ?_⟩
  · intro htype
    exact ⟨_, Shake_UploadEffect_fill_rumble H e effect htype, rfl, rfl⟩
  · intro htype
    exact ⟨_, Shake_UploadEffect_fill_constant H e effect (Ne.symm hrc) (Ne.symm hpc) htype,
      rfl⟩
  · intro htype
    exact ⟨_, Shake_UploadEffect_fill_ramp H e effect (Ne.symm hrr) (Ne.symm hpr)
      (Ne.symm hcr) htype, rfl⟩

/-- C20 fails on the code for Rumble, Constant and Ramp effects. Uploading the
same Rumble effect from two initial contents of the local record that differ in
`direction` and `trigger` submits two records that differ in direction, trigger
button and trigger interval: each carries the prior value of the local.
Likewise the Constant effect is submitted with the prior `direction`. -/
theorem C20_rumble_record_keeps_prior_fields :
    (Shake_UploadEffect exHeader exEnv exRecord (some exDevice) (some exRumble) 0).trace
        = [Call.ioctl_EVIOCSFF 3
            { exRecord with type := 0x50, id := -1, replay := ⟨1000, 50⟩,
                            u.rumble := ⟨0xC000, 0x4000⟩ }]
      ∧ (Shake_UploadEffect exHeader exEnv exRecordOther (some exDevice) (some exRumble) 0).trace
        = [Call.ioctl_EVIOCSFF 3
            { exRecordOther with type := 0x50, id := -1, replay := ⟨1000, 50⟩,
                                 u.rumble := ⟨0xC000, 0x4000⟩ }]
      ∧ exRecord.direction = 13 ∧ exRecordOther.direction = 113
      ∧ exRecord.trigger = ⟨14, 15⟩ ∧ exRecordOther.trigger = ⟨114, 115⟩
      ∧ (Shake_UploadEffect exHeader exEnv exRecord (some exDevice) (some exRumble) 0).trace
        ≠ (Shake_UploadEffect exHeader exEnv exRecordOther (some exDevice)
            (some exRumble) 0).trace
      ∧ (Shake_UploadEffect exHeader exEnv exRecord (some exDevice) (some exConstant) 0).trace
        ≠ (Shake_UploadEffect exHeader exEnv exRecordOther (some exDevice)
            (some exConstant) 0).trace := by
  refine ⟨by decide, by decide, rfl, rfl, rfl, rfl, by decide, by decide⟩

/-! ## Theorems: effect-type constants and effect construction -/

/-- C19: effect-type constants are translated by one fixed base. With the
enumerator values of `specHeader`, for every effect whose type `T` is Rumble,
Periodic, Constant or Ramp (and whose id is from -1 on), the native type
constant `Shake_UploadEffect` writes into the record it submits equals
`FF_RUMBLE + T`, namely `FF_RUMBLE`, `FF_PERIODIC`, `FF_CONSTANT`, `FF_RAMP`
respectively, and `Shake_QueryEffectSupport` tests the feature bit with that
very index: a type is reported supported exactly when the bit of the type that
would be uploaded is set. -/
theorem C19_effect_type_base {σ : Type} (E : Env σ) (e : ff_effect) (d : Shake_Device)
    (effect : Shake_Effect) (s : σ) (test_bit : Int → List Nat → Int)
    (queried : Shake_Device)
    (hT : effect.type ∈ supportedTypes specHeader) (hid : -1 ≤ effect.id) :
    ∃ native, (Shake_UploadEffect specHeader E e (some d) (some effect) s).trace
          = [Call.ioctl_EVIOCSFF d.fd native]
      ∧ native.type = FF_RUMBLE + effect.type
      ∧ (effect.type = specHeader.SHAKE_EFFECT_RUMBLE → native.type = FF_RUMBLE)
      ∧ (effect.type = specHeader.SHAKE_EFFECT_PERIODIC → native.type = FF_PERIODIC)
      ∧ (effect.type = specHeader.SHAKE_EFFECT_CONSTANT → native.type = FF_CONSTANT)
      ∧ (effect.type = specHeader.SHAKE_EFFECT_RAMP → native.type = FF_RAMP)
      ∧ Shake_QueryEffectSupport test_bit queried effect.type
          = decide (test_bit native.type queried.features ≠ 0) := by
  have hquery : ∀ n : Int, n = FF_RUMBLE + effect.type →
      Shake_QueryEffectSupport test_bit queried effect.type
        = decide (test_bit n queried.features ≠ 0) := by
    intro n hn
    rw [hn]
    simp only [Shake_QueryEffectSupport]
    split_ifs with h <;> simp [h]
  simp only [supportedTypes, List.mem_cons, List.mem_singleton, List.not_mem_nil, or_false]
    at hT
  rcases hT with h | h | h | h
  · have hfill := Shake_UploadEffect_fill_rumble specHeader e effect h
    have hty : toU16 FF_RUMBLE = FF_RUMBLE + effect.type := by
      rw [h]
      decide
    refine ⟨_, Shake_UploadEffect_trace_of_fill specHeader E e d effect s hid _ hfill, hty,
      ?_, ?_, ?_, ?_, hquery _ hty⟩
    · intro _
      exact toU16_of_fits (by decide) (by decide)
    · intro h2
      rw [h] at h2
      exact absurd h2 (by decide)
    · intro h2
      rw [h] at h2
      exact absurd h2 (by decide)
    · intro h2
      rw [h] at h2
      exact absurd h2 (by decide)
  · have hfill := Shake_UploadEffect_fill_periodic specHeader e effect (by decide) h
    have hty : toU16 FF_PERIODIC = FF_RUMBLE + effect.type := by
      rw [h]
      decide
    refine ⟨_, Shake_UploadEffect_trace_of_fill specHeader E e d effect s hid _ hfill, hty,
      ?_, ?_, ?_, ?_, hquery _ hty⟩
    · intro h2
      rw [h] at h2
      exact absurd h2 (by decide)
    · intro _
      exact toU16_of_fits (by decide) (by decide)
    · intro h2
      rw [h] at h2
      exact absurd h2 (by decide)
    · intro h2
      rw [h] at h2
      exact absurd h2 (by decide)
  · have hfill := Shake_UploadEffect_fill_constant specHeader e effect (by decide)
      (by decide) h
    have hty : toU16 FF_CONSTANT = FF_RUMBLE + effect.type := by
      rw [h]
      decide
    refine ⟨_, Shake_UploadEffect_trace_of_fill specHeader E e d effect s hid _ hfill, hty,
      ?_, ?_, ?_, ?_, hquery _ hty⟩
    · intro h2
      rw [h] at h2
      exact absurd h2 (by decide)
    · intro h2
      rw [h] at h2
      exact absurd h2 (by decide)
    · intro _
      exact toU16_of_fits (by decide) (by decide)
    · intro h2
      rw [h] at h2
      exact absurd h2 (by decide)
  · have hfill := Shake_UploadEffect_fill_ramp specHeader e effect (by decide) (by decide)
      (by decide) h
    have hty : toU16 FF_RAMP = FF_RUMBLE + effect.type := by
      rw [h]
      decide
    refine ⟨_, Shake_UploadEffect_trace_of_fill specHeader E e d effect s hid _ hfill, hty,
      ?_, ?_, ?_, ?_, hquery _ hty⟩
    · intro h2
      rw [h] at h2
      exact absurd h2 (by decide)
    · intro h2
      rw [h] at h2
      exact absurd h2 (by decide)
    · intro h2
      rw [h] at h2
      exact absurd h2 (by decide)
    · intro _
      exact toU16_of_fits (by decide) (by decide)

/-- C19 on the example transport for a Ramp effect: the record carries type
0x57 (`FF_RAMP`), which is `FF_RUMBLE + 7`, and the support query tests bit
0x57. -/
theorem C19_effect_type_base_witness :
    exRamp.type ∈ supportedTypes specHeader ∧ -1 ≤ exRamp.id
      ∧ ∃ native, (Shake_UploadEffect specHeader exEnv exRecord (some exDevice)
            (some exRamp) 0).trace = [Call.ioctl_EVIOCSFF exDevice.fd native]
          ∧ native.type = 0x57
          ∧ Shake_QueryEffectSupport exTestBit exDevice exRamp.type
              = decide (exTestBit 0x57 exDevice.features ≠ 0) := by
  obtain ⟨native, htrace, hty, -, -, -, hramp, hq⟩ :=
    C19_effect_type_base exEnv exRecord exDevice exRamp 0 exTestBit exDevice
      (by decide) (by decide)
  have h57 : native.type = 0x57 := hramp rfl
  rw [h57] at hq
  exact ⟨by decide, by decide, native, htrace, h57, hq⟩

/-- C17: `Shake_InitEffect` constructs a fresh effect. For every type `T` of
the supported set (its enumerator lying in the range the function accepts, from
0 up to but excluding `SHAKE_EFFECT_COUNT`) and whatever the effect held
before, `Shake_InitEffect` returns `SHAKE_OK` and leaves the effect with type
`T`, id -1 and delay, length, direction and the whole payload zero.
Consequently the fresh effect passes the id check of `Shake_UploadEffect`,
which submits it with id -1, the request for a new slot. -/
theorem C17_init_effect_fresh {σ : Type} (H : Shake_h) (E : Env σ) (e : ff_effect)
    (d : Shake_Device) (old : Shake_Effect) (s : σ) (T : Int)
    (hT : T ∈ supportedTypes H) (hrange : 0 ≤ T ∧ T < H.SHAKE_EFFECT_COUNT) :
    ∃ fresh, Shake_InitEffect H (some old) T = (SHAKE_OK, some fresh)
      ∧ fresh.type = T ∧ fresh.id = -1
      ∧ fresh.delay = 0 ∧ fresh.length = 0 ∧ fresh.direction = 0
      ∧ fresh.u = { rumble := ⟨0, 0⟩, periodic := ⟨0, 0, 0, 0, 0, ⟨0, 0, 0, 0⟩⟩,
                    constant := ⟨0, ⟨0, 0, 0, 0⟩⟩, ramp := ⟨0, 0, ⟨0, 0, 0, 0⟩⟩ }
      ∧ ¬ fresh.id < -1
      ∧ ∃ native, (Shake_UploadEffect H E e (some d) (some fresh) s).trace
            = [Call.ioctl_EVIOCSFF d.fd native]
          ∧ native.id = -1 := by
  have hcond : ¬ (T < 0 ∨ T ≥ H.SHAKE_EFFECT_COUNT) := by omega
  have hm1 : ¬ ((-1 : Int) < -1) := by decide
  have hle : (-1 : Int) ≤ -1 := le_refl _
  have hs16 : toS16 (-1) = -1 := by decide
  refine ⟨{ Shake_Effect_zero with type := T, id := -1 }, ?_, rfl, rfl, rfl, rfl, rfl, rfl,
    hm1, ?_⟩
  · simp only [Shake_InitEffect, hcond, if_false]
  · obtain ⟨native, hfill, hnid, -, -, -⟩ := Shake_UploadEffect_fill_assigned H e
      { Shake_Effect_zero with type := T, id := -1 } hT
    refine ⟨native, Shake_UploadEffect_trace_of_fill H E e d _ s hle native hfill, ?_⟩
    rw [hnid]
    exact hs16

/-- C17 for the Ramp type of the example header, on an effect that held a
Rumble effect before. -/
theorem C17_init_effect_fresh_witness :
    (7 : Int) ∈ supportedTypes exHeader ∧ ((0 : Int) ≤ 7 ∧ 7 < exHeader.SHAKE_EFFECT_COUNT)
      ∧ ∃ fresh, Shake_InitEffect exHeader (some exRumble) 7 = (SHAKE_OK, some fresh)
          ∧ fresh.type = 7 ∧ fresh.id = -1
          ∧ fresh.delay = 0 ∧ fresh.length = 0 ∧ fresh.direction = 0
          ∧ ∃ native, (Shake_UploadEffect exHeader exEnv exRecord (some exDevice)
                (some fresh) 0).trace = [Call.ioctl_EVIOCSFF exDevice.fd native]
              ∧ native.id = -1 := by
  obtain ⟨fresh, hinit, hty, hid, hdelay, hlen, hdir, -, -, hup⟩ :=
    C17_init_effect_fresh exHeader exEnv exRecord exDevice exRumble 0 7
      (by decide) (by decide)
  exact ⟨by decide, by decide, fresh, hinit, hty, hid, hdelay, hlen, hdir, hup⟩

/-! ## Theorems: play and stop events -/

theorem toU16_eq_emod (x : Int) : toU16 x = x % 65536 := by
  unfold toU16 toUnsigned
  norm_num

/-- The result of `Shake_Play` on a non-`NULL` device for an id from 0 on. -/
theorem Shake_Play_eq {σ : Type} (E : Env σ) (ev : input_event) (d : Shake_Device)
    (id : Int) (s : σ) (h0 : 0 ≤ id) :
    Shake_Play E ev (some d) id s =
      ⟨if (E.sys_write d.fd { time := ev.time, type := EV_FF, code := id % 65536,
                              value := FF_STATUS_PLAYING } s).1 = -1
          then SHAKE_ERROR else SHAKE_OK,
        [Call.sys_write d.fd { time := ev.time, type := EV_FF, code := id % 65536,
                               value := FF_STATUS_PLAYING }],
        (E.sys_write d.fd { time := ev.time, type := EV_FF, code := id % 65536,
                            value := FF_STATUS_PLAYING } s).2⟩ := by
  have hnot : ¬ id < 0 := by omega
  have h1 : toU16 EV_FF = EV_FF := by decide
  have h2 : toS32 FF_STATUS_PLAYING = FF_STATUS_PLAYING := by decide
  simp only [Shake_Play, hnot, if_false, h1, h2, toU16_eq_emod]
  split_ifs <;> rfl

/-- The result of `Shake_Stop` on a non-`NULL` device for an id from 0 on. -/
theorem Shake_Stop_eq {σ : Type} (E : Env σ) (ev : input_event) (d : Shake_Device)
    (id : Int) (s : σ) (h0 : 0 ≤ id) :
    Shake_Stop E ev (some d) id s =
      ⟨if (E.sys_write d.fd { time := ev.time, type := EV_FF, code := id % 65536,
                              value := FF_STATUS_STOPPED } s).1 = -1
          then SHAKE_ERROR else SHAKE_OK,
        [Call.sys_write d.fd { time := ev.time, type := EV_FF, code := id % 65536,
                               value := FF_STATUS_STOPPED }],
        (E.sys_write d.fd { time := ev.time, type := EV_FF, code := id % 65536,
                            value := FF_STATUS_STOPPED } s).2⟩ := by
  have hnot : ¬ id < 0 := by omega
  have h1 : toU16 EV_FF = EV_FF := by decide
  have h2 : toS32 FF_STATUS_STOPPED = FF_STATUS_STOPPED := by decide
  simp only [Shake_Stop, hnot, if_false, h1, h2, toU16_eq_emod]
  split_ifs <;> rfl

/-- C16, as stated, fails for ids above 65535: `Shake_Play` with id 65536
writes an event whose code is 0, the very event it writes for id 0, so the code
does not identify slot 65536. -/
theorem C16_counterexample_id_65536 :
    (Shake_Play exEnv exEvent (some exDevice) 65536 0).trace
        = [Call.sys_write 3 { time := (7, 9), type := 0x15, code := 0, value := 1 }]
      ∧ (Shake_Play exEnv exEvent (some exDevice) 65536 0).trace
        ≠ [Call.sys_write 3 { time := (7, 9), type := 0x15, code := 65536, value := 1 }]
      ∧ (Shake_Play exEnv exEvent (some exDevice) 65536 0).trace
        = (Shake_Play exEnv exEvent (some exDevice) 0 0).trace := by
  refine ⟨by decide, by decide, by decide⟩

/-- C16 (amended): for every non-`NULL` device and every id from 0 to 65535,
`Shake_Play` writes exactly one event with type `EV_FF`, code equal to the id
and value `FF_STATUS_PLAYING`, and `Shake_Stop` exactly one event with type
`EV_FF`, code equal to the id and value `FF_STATUS_STOPPED`; each returns
`SHAKE_ERROR` when the write answers -1 and `SHAKE_OK` otherwise. -/
theorem C16_play_stop_event {σ : Type} (E : Env σ) (ev : input_event) (d : Shake_Device)
    (id : Int) (s : σ) (h0 : 0 ≤ id) (h1 : id ≤ 65535) :
    (Shake_Play E ev (some d) id s).trace
        = [Call.sys_write d.fd { time := ev.time, type := EV_FF, code := id,
                                 value := FF_STATUS_PLAYING }]
      ∧ (Shake_Stop E ev (some d) id s).trace
        = [Call.sys_write d.fd { time := ev.time, type := EV_FF, code := id,
                                 value := FF_STATUS_STOPPED }]
      ∧ (Shake_Play E ev (some d) id s).ret
        = (if (E.sys_write d.fd { time := ev.time, type := EV_FF, code := id,
                                  value := FF_STATUS_PLAYING } s).1 = -1
            then SHAKE_ERROR else SHAKE_OK)
      ∧ (Shake_Stop E ev (some d) id s).ret
        = (if (E.sys_write d.fd { time := ev.time, type := EV_FF, code := id,
                                  value := FF_STATUS_STOPPED } s).1 = -1
            then SHAKE_ERROR else SHAKE_OK) := by
  have hmod : id % 65536 = id := Int.emod_eq_of_lt h0 (by omega)
  rw [Shake_Play_eq E ev d id s h0, Shake_Stop_eq E ev d id s h0, hmod]
  exact ⟨rfl, rfl, rfl, rfl⟩

/-- C16 (amended) on the example transport for slot 5. -/
theorem C16_play_stop_event_witness :
    (0 : Int) ≤ 5 ∧ (5 : Int) ≤ 65535
      ∧ (Shake_Play exEnv exEvent (some exDevice) 5 0).trace
          = [Call.sys_write exDevice.fd { time := exEvent.time, type := EV_FF, code := 5,
                                          value := FF_STATUS_PLAYING }]
      ∧ (Shake_Stop exEnv exEvent (some exDevice) 5 0).trace
          = [Call.sys_write exDevice.fd { time := exEvent.time, type := EV_FF, code := 5,
                                          value := FF_STATUS_STOPPED }] :=
  ⟨by decide, by decide,
    (C16_play_stop_event exEnv exEvent exDevice 5 0 (by decide) (by decide)).1,
    (C16_play_stop_event exEnv exEvent exDevice 5 0 (by decide) (by decide)).2.1⟩

/-! ## Theorems: the prober's transient transport -/

/-- `Shake_Query` closes nothing. -/
theorem Shake_Query_closes_nothing {σ : Type} (E : Env σ) (dev : Option Shake_Device) (s : σ) :
    closesOf (Shake_Query E dev s).trace = [] := by
  cases dev with
  | none => rfl
  | some d =>
    simp only [Shake_Query]
    split_ifs <;> rfl

/-- When the open yields a non-zero handle, `Shake_Probe` opens, queries and
ends with exactly one `close` of that handle, whatever `Shake_Query` returns,
and it returns `SHAKE_OK` exactly when `Shake_Query` did. -/
theorem Shake_Probe_closes_nonzero_handle {σ : Type} (E : Env σ) (d : Shake_Device)
    (node : String) (s : σ) (hnode : d.node = some node)
    (hfd : (E.sys_open node s).1 ≠ 0) :
    (Shake_Probe E (some d) s).trace
        = Call.sys_open node
            :: (Shake_Query E (some { d with fd := (E.sys_open node s).1 })
                  (E.sys_open node s).2).trace
            ++ [Call.sys_close (E.sys_open node s).1]
      ∧ closesOf (Shake_Probe E (some d) s).trace = [(E.sys_open node s).1]
      ∧ ((Shake_Probe E (some d) s).status = SHAKE_OK ↔
          (Shake_Query E (some { d with fd := (E.sys_open node s).1 })
            (E.sys_open node s).2).status = SHAKE_OK) := by
  obtain ⟨id0, node0, fd0, features0, capacity0, name0⟩ := d
  simp only at hnode
  subst hnode
  obtain ⟨d1, hd1, -, hf1, -⟩ := Shake_Query_dev E
    { id := id0, node := some node, fd := (E.sys_open node s).1, features := features0,
      capacity := capacity0, name := name0 } (E.sys_open node s).2
  simp only at hf1
  have hq0 := Shake_Query_closes_nothing E (some
    { id := id0, node := some node, fd := (E.sys_open node s).1, features := features0,
      capacity := capacity0, name := name0 }) (E.sys_open node s).2
  have htrace : (Shake_Probe E (some
      { id := id0, node := some node, fd := fd0, features := features0,
        capacity := capacity0, name := name0 }) s).trace
        = Call.sys_open node
            :: (Shake_Query E (some
                  { id := id0, node := some node, fd := (E.sys_open node s).1,
                    features := features0, capacity := capacity0, name := name0 })
                  (E.sys_open node s).2).trace
            ++ [Call.sys_close (E.sys_open node s).1] := by
    simp only [Shake_Probe, hfd, if_false, hd1, Option.getD_some, hf1]
  refine ⟨htrace, ?_, ?_⟩
  · rw [htrace]
    simp only [closesOf, List.filterMap_cons, List.filterMap_append, List.filterMap_nil]
    simp only [closesOf] at hq0
    rw [hq0]
    rfl
  · simp only [Shake_Probe, hfd, if_false]
    by_cases hs : (Shake_Query E (some
        { id := id0, node := some node, fd := (E.sys_open node s).1, features := features0,
          capacity := capacity0, name := name0 }) (E.sys_open node s).2).status = 0
    · simp [hs, SHAKE_OK]
    · simp [hs, SHAKE_OK, SHAKE_ERROR]

/-- C18 fails on the code when the open succeeds with handle 0. On a transport
whose open yields handle 0 and whose device, queried on that handle, satisfies
the acceptance rule (`Shake_Query` on it returns `SHAKE_OK`), `Shake_Probe`
issues the open and nothing else: no query, no `close` of handle 0, and it
returns `SHAKE_ERROR`. -/
theorem C18_probe_leaks_handle_zero :
    (exEnvLowestHandle.sys_open "/dev/input/event0" 0).1 = 0
      ∧ (Shake_Probe exEnvLowestHandle
            (some (Shake_Init_dev exHeader exUninit 0 "event0")) 0).trace
          = [Call.sys_open "/dev/input/event0"]
      ∧ closesOf (Shake_Probe exEnvLowestHandle
            (some (Shake_Init_dev exHeader exUninit 0 "event0")) 0).trace = []
      ∧ (Shake_Probe exEnvLowestHandle
            (some (Shake_Init_dev exHeader exUninit 0 "event0")) 0).status = SHAKE_ERROR
      ∧ (Shake_Query exEnvLowestHandle
            (some { Shake_Init_dev exHeader exUninit 0 "event0" with fd := 0 }) 1).status
          = SHAKE_OK := by
  refine ⟨by decide, by decide, by decide, by decide, by decide⟩

end LibShake
